import Mathlib

/-!
Verification of the unique-amount payment reconciliation core of the
tg_dgn_bot repository against its specification.

The Python code computes money amounts with IEEE-754 binary64 floating
point (`base_amount + suffix / 1000.0`, `total_amount * 1000000`, ...).
We model binary64 arithmetic exactly: a double is the rational value it
denotes, and every arithmetic operation first computes the exact rational
result and then rounds it to 53 significant bits with round-to-nearest,
ties-to-even (the IEEE default used by CPython).  Overflow and subnormal
behaviour are irrelevant at the magnitudes that occur here, so the model
uses an unbounded exponent range, which agrees with binary64 on all
values appearing in this development.

`Fp.rne` models Python's `round()` (round half to even, returning an
integer), `Fp.pytrunc` models Python's `int()` (truncation toward zero),
`Fp.roundD` is rounding of an exact rational to the nearest double.
-/

namespace Fp

/-- Fuel-driven base-2 logarithm for `1 ≤ q`: number of halvings until the
value drops below `2`.  With enough fuel it returns `⌊log₂ q⌋`. -/
def ilogUp : ℕ → ℚ → ℕ
  | 0, _ => 0
  | f+1, q => if q < 2 then 0 else ilogUp f (q / 2) + 1

/-- Fuel-driven base-2 logarithm for `0 < q < 1`: number of doublings needed
to reach `1`.  With enough fuel, `-(ilogDown f q)` is `⌊log₂ q⌋`. -/
def ilogDown : ℕ → ℚ → ℕ
  | 0, _ => 0
  | f+1, q => if 1 ≤ 2 * q then 1 else ilogDown f (2 * q) + 1

/-- `⌊log₂ q⌋` for positive rationals within the binary64 exponent range. -/
def ilog2 (q : ℚ) : ℤ :=
  if 1 ≤ q then (ilogUp 2100 q : ℤ) else -(ilogDown 2100 q : ℤ)

/-- `2 ^ k` over ℚ with an integer exponent. -/
def pow2 (k : ℤ) : ℚ := 2 ^ k

/-- Round to nearest integer, ties to even: the semantics of Python's
`round()` on a float. -/
def rne (q : ℚ) : ℤ :=
  if q - (⌊q⌋ : ℚ) < 1/2 then ⌊q⌋
  else if (1:ℚ)/2 < q - (⌊q⌋ : ℚ) then ⌊q⌋ + 1
  else if ⌊q⌋ % 2 = 0 then ⌊q⌋ else ⌊q⌋ + 1

/-- Round a positive rational to 53 significant bits (nearest, ties even):
scale into `[2^52, 2^53)`, round to an integer significand, scale back. -/
def roundPos (q : ℚ) : ℚ :=
  (rne (q * pow2 (52 - ilog2 q)) : ℚ) * pow2 (ilog2 q - 52)

/-- Round an exact rational to the nearest binary64 value. -/
def roundD (q : ℚ) : ℚ :=
  if q = 0 then 0 else if 0 < q then roundPos q else -roundPos (-q)

/-- Binary64 addition: exact sum, then rounding. -/
def fadd (x y : ℚ) : ℚ := roundD (x + y)

/-- Binary64 multiplication: exact product, then rounding. -/
def fmul (x y : ℚ) : ℚ := roundD (x * y)

/-- Binary64 division: exact quotient, then rounding. -/
def fdiv (x y : ℚ) : ℚ := roundD (x / y)

/-- Python's `int()` on a float: truncation toward zero. -/
def pytrunc (q : ℚ) : ℤ := if 0 ≤ q then ⌊q⌋ else -⌊-q⌋

theorem pow2_pos (k : ℤ) : 0 < pow2 k := zpow_pos (by norm_num) k

theorem pow2_le_pow2 {j k : ℤ} (h : j ≤ k) : pow2 j ≤ pow2 k :=
  zpow_le_zpow_right₀ (by norm_num) h

theorem pow2_lt_pow2 {j k : ℤ} (h : j < k) : pow2 j < pow2 k :=
  zpow_lt_zpow_right₀ (by norm_num) h

theorem pow2_add (j k : ℤ) : pow2 (j + k) = pow2 j * pow2 k :=
  zpow_add₀ (by norm_num) j k

theorem pow2_natCast (n : ℕ) : pow2 (n : ℤ) = 2 ^ n := zpow_natCast 2 n

theorem pow2_neg (k : ℤ) : pow2 (-k) = 1 / pow2 k := by
  rw [pow2, pow2, zpow_neg, one_div]

theorem pow2_zero : pow2 0 = 1 := zpow_zero 2

theorem pow2_one : pow2 1 = 2 := zpow_one 2

theorem pow2_negOfNat (n : ℕ) : pow2 (-(n : ℤ)) = 1 / 2 ^ n := by
  rw [pow2_neg, pow2_natCast]

theorem ilogUp_spec : ∀ (f : ℕ) (q : ℚ), 1 ≤ q → q < 2 ^ f →
    2 ^ ilogUp f q ≤ q ∧ q < 2 ^ (ilogUp f q + 1) := by
  intro f
  induction f with
  | zero => intro q h1 h2; norm_num at h2; exact absurd (lt_of_le_of_lt h1 h2) (by norm_num)
  | succ f ih =>
    intro q h1 h2
    rw [ilogUp]
    by_cases hq : q < 2
    · rw [if_pos hq]; constructor
      · simpa using h1
      · simpa using hq
    · rw [if_neg hq]
      push_neg at hq
      have hh1 : (1:ℚ) ≤ q / 2 := by linarith
      have hh2 : q / 2 < 2 ^ f := by
        rw [pow_succ] at h2; linarith
      obtain ⟨ha, hb⟩ := ih (q / 2) hh1 hh2
      constructor
      · rw [pow_succ]; linarith
      · rw [pow_succ]; linarith

theorem ilogDown_spec : ∀ (f : ℕ) (q : ℚ), 0 < q → q < 1 → 1 ≤ q * 2 ^ f →
    1 ≤ q * 2 ^ ilogDown f q ∧ q * 2 ^ ilogDown f q < 2 := by
  intro f
  induction f with
  | zero => intro q h0 h1 h2; norm_num at h2; exact absurd (lt_of_le_of_lt h2 h1) (by norm_num)
  | succ f ih =>
    intro q h0 h1 h2
    rw [ilogDown]
    by_cases hq : 1 ≤ 2 * q
    · rw [if_pos hq]; constructor
      · rw [pow_one]; linarith
      · rw [pow_one]; linarith
    · rw [if_neg hq]
      push_neg at hq
      have hh0 : 0 < 2 * q := by linarith
      have hh1 : 2 * q < 1 := hq
      have hh2 : 1 ≤ 2 * q * 2 ^ f := by
        rw [pow_succ] at h2; linarith
      obtain ⟨ha, hb⟩ := ih (2 * q) hh0 hh1 hh2
      constructor
      · rw [pow_succ]; linarith
      · rw [pow_succ]; linarith

theorem ilog2_spec (q : ℚ) (h0 : pow2 (-1000) ≤ q) (h1 : q < pow2 1001) :
    pow2 (ilog2 q) ≤ q ∧ q < pow2 (ilog2 q + 1) := by
  have hqpos : 0 < q := lt_of_lt_of_le (pow2_pos _) h0
  have h2100 : pow2 2100 = (2:ℚ) ^ (2100 : ℕ) := by
    rw [pow2, show (2100:ℤ) = ((2100:ℕ):ℤ) by norm_cast, zpow_natCast]
  rw [ilog2]
  by_cases hq : 1 ≤ q
  · rw [if_pos hq]
    have hbound : q < 2 ^ (2100 : ℕ) := by
      rw [← h2100]
      exact lt_of_lt_of_le h1 (pow2_le_pow2 (by norm_num))
    obtain ⟨ha, hb⟩ := ilogUp_spec 2100 q hq hbound
    constructor
    · rw [pow2_natCast]; exact ha
    · have hcast : ((ilogUp 2100 q : ℤ) + 1) = ((ilogUp 2100 q + 1 : ℕ) : ℤ) := by push_cast; ring
      rw [hcast, pow2_natCast]; exact hb
  · rw [if_neg hq]
    push_neg at hq
    have hfuel : 1 ≤ q * 2 ^ (2100 : ℕ) := by
      have hstep : pow2 (-1000) * pow2 2100 ≤ q * pow2 2100 :=
        mul_le_mul_of_nonneg_right h0 (le_of_lt (pow2_pos _))
      rw [← pow2_add] at hstep
      have hone : (1:ℚ) ≤ pow2 (-1000 + 2100) := by
        have h01 : pow2 0 ≤ pow2 (-1000 + 2100) := pow2_le_pow2 (by norm_num)
        rw [pow2_zero] at h01
        exact h01
      have hq2100 : (1:ℚ) ≤ q * pow2 2100 := le_trans hone hstep
      rw [h2100] at hq2100
      exact hq2100
    obtain ⟨ha, hb⟩ := ilogDown_spec 2100 q hqpos hq hfuel
    have hp : (0:ℚ) < 2 ^ ilogDown 2100 q := by positivity
    constructor
    · rw [pow2_negOfNat, div_le_iff₀ hp]
      exact ha
    · have hsplit : pow2 (-(ilogDown 2100 q : ℤ) + 1) = 2 / 2 ^ ilogDown 2100 q := by
        rw [show (-(ilogDown 2100 q : ℤ) + 1) = 1 + -(ilogDown 2100 q : ℤ) by ring,
          pow2_add, pow2_one, pow2_negOfNat]
        ring
      rw [hsplit, lt_div_iff₀ hp]
      exact hb


theorem ilog2_unique (q : ℚ) (e : ℤ) (h1 : pow2 e ≤ q) (h2 : q < pow2 (e + 1))
    (he1 : -1000 ≤ e) (he2 : e ≤ 1000) : ilog2 q = e := by
  have hlo : pow2 (-1000) ≤ q := le_trans (pow2_le_pow2 he1) h1
  have hhi : q < pow2 1001 := lt_of_lt_of_le h2 (pow2_le_pow2 (by omega))
  obtain ⟨ha, hb⟩ := ilog2_spec q hlo hhi
  by_contra hne
  rcases lt_or_gt_of_ne hne with hlt | hgt
  · have : pow2 (ilog2 q + 1) ≤ pow2 e := pow2_le_pow2 (by omega)
    linarith
  · have : pow2 (e + 1) ≤ pow2 (ilog2 q) := pow2_le_pow2 (by omega)
    linarith

theorem rne_eq_of (q : ℚ) (n : ℤ) (h : |q - (n : ℚ)| < 1/2) : rne q = n := by
  rw [abs_lt] at h
  obtain ⟨hlo, hhi⟩ := h
  rw [rne]
  by_cases hc : (n : ℚ) ≤ q
  · have hf : ⌊q⌋ = n := by
      rw [Int.floor_eq_iff]
      constructor
      · exact hc
      · linarith
    rw [hf, if_pos (by linarith)]
  · push_neg at hc
    have hf : ⌊q⌋ = n - 1 := by
      rw [Int.floor_eq_iff]
      constructor
      · push_cast; linarith
      · push_cast; linarith
    rw [hf]
    rw [if_neg (by push_cast; linarith), if_pos (by push_cast; linarith)]
    ring

theorem rne_tie_even (q : ℚ) (n : ℤ) (h : q = (n : ℚ) + 1/2) (he : n % 2 = 0) :
    rne q = n := by
  have hf : ⌊q⌋ = n := by
    rw [Int.floor_eq_iff]
    constructor
    · rw [h]; linarith
    · rw [h]; linarith
  rw [rne, hf, if_neg (by rw [h]; linarith),
      if_neg (by rw [h]; linarith), if_pos he]

theorem rne_intCast (n : ℤ) : rne (n : ℚ) = n := by
  apply rne_eq_of
  simp

theorem rne_err (q : ℚ) : |(rne q : ℚ) - q| ≤ 1/2 := by
  have hfl : (⌊q⌋ : ℚ) ≤ q := Int.floor_le q
  have hfu : q < (⌊q⌋ : ℚ) + 1 := Int.lt_floor_add_one q
  rw [rne]
  by_cases h1 : q - (⌊q⌋ : ℚ) < 1/2
  · rw [if_pos h1, abs_le]; constructor <;> linarith
  · rw [if_neg h1]
    push_neg at h1
    by_cases h2 : (1:ℚ)/2 < q - (⌊q⌋ : ℚ)
    · rw [if_pos h2, abs_le]; push_cast; constructor <;> linarith
    · rw [if_neg h2]
      push_neg at h2
      by_cases h3 : ⌊q⌋ % 2 = 0
      · rw [if_pos h3, abs_le]; constructor <;> linarith
      · rw [if_neg h3, abs_le]; push_cast; constructor <;> linarith

/-- Evaluation rule for rounding a positive rational: if `e` brackets `q`
between consecutive powers of two and `n` is the rounded scaled
significand, then `roundPos q = n * 2 ^ (e - 52)`. -/
theorem roundPos_eq (q : ℚ) (e n : ℤ) (h1 : pow2 e ≤ q) (h2 : q < pow2 (e + 1))
    (he1 : -1000 ≤ e) (he2 : e ≤ 1000)
    (hn : rne (q * pow2 (52 - e)) = n) : roundPos q = (n : ℚ) * pow2 (e - 52) := by
  rw [roundPos, ilog2_unique q e h1 h2 he1 he2, hn]

/-- The relative error bound used throughout: rounding a positive value
that is at most `2^E` (and not absurdly small) moves it by at most
`2^(E-53)`, i.e. by at most half an ulp. -/
theorem roundD_err (q : ℚ) (E : ℤ) (h0 : 0 < q) (hlo : pow2 (-50) ≤ q)
    (hE : q ≤ pow2 E) (hE1 : -50 ≤ E) (hE2 : E ≤ 900) :
    |roundD q - q| ≤ pow2 (E - 53) := by
  rw [roundD, if_neg (ne_of_gt h0), if_pos h0]
  have hlo' : pow2 (-1000) ≤ q := le_trans (pow2_le_pow2 (by norm_num)) hlo
  have hhi : q < pow2 1001 := lt_of_le_of_lt hE (pow2_lt_pow2 (by omega))
  obtain ⟨ha, hb⟩ := ilog2_spec q hlo' hhi
  have he_le : ilog2 q ≤ E := by
    by_contra hc
    push_neg at hc
    have : pow2 E < pow2 (ilog2 q) := pow2_lt_pow2 hc
    linarith
  rw [roundPos]
  have hunit : pow2 (52 - ilog2 q) * pow2 (ilog2 q - 52) = 1 := by
    rw [← pow2_add, show (52 - ilog2 q) + (ilog2 q - 52) = 0 by ring, pow2_zero]
  have key : (rne (q * pow2 (52 - ilog2 q)) : ℚ) * pow2 (ilog2 q - 52) - q
      = ((rne (q * pow2 (52 - ilog2 q)) : ℚ) - q * pow2 (52 - ilog2 q)) * pow2 (ilog2 q - 52) := by
    rw [sub_mul, mul_assoc, hunit, mul_one]
  rw [key, abs_mul, abs_of_pos (pow2_pos _)]
  have herr := rne_err (q * pow2 (52 - ilog2 q))
  have hhalf : pow2 (-1) = 1/2 := by
    rw [pow2, show (-1 : ℤ) = -(1:ℤ) by ring, zpow_neg, zpow_one]
    norm_num
  calc |(rne (q * pow2 (52 - ilog2 q)) : ℚ) - q * pow2 (52 - ilog2 q)| * pow2 (ilog2 q - 52)
      ≤ 1/2 * pow2 (ilog2 q - 52) := by
        exact mul_le_mul_of_nonneg_right herr (le_of_lt (pow2_pos _))
    _ = pow2 (ilog2 q - 53) := by
        rw [show ilog2 q - 53 = -1 + (ilog2 q - 52) by ring, pow2_add, hhalf]
    _ ≤ pow2 (E - 53) := pow2_le_pow2 (by omega)

/-- Direct evaluation rule for `roundD` on a positive rational. -/
theorem roundD_eq (q : ℚ) (e n : ℤ) (h0 : 0 < q) (h1 : pow2 e ≤ q)
    (h2 : q < pow2 (e + 1)) (he1 : -1000 ≤ e) (he2 : e ≤ 1000)
    (hn : rne (q * pow2 (52 - e)) = n) : roundD q = (n : ℚ) * pow2 (e - 52) := by
  rw [roundD, if_neg (ne_of_gt h0), if_pos h0, roundPos_eq q e n h1 h2 he1 he2 hn]

theorem pytrunc_eq_nonneg (q : ℚ) (n : ℤ) (h0 : 0 ≤ q) (h1 : (n : ℚ) ≤ q)
    (h2 : q < (n : ℚ) + 1) : pytrunc q = n := by
  rw [pytrunc, if_pos h0, Int.floor_eq_iff]
  exact ⟨h1, h2⟩

end Fp

/-!
Exact values of the binary64 computations that occur in the concrete
scenarios of this development, each obtained by applying the rounding
rules to the exact rational intermediate results.
-/

namespace Fp

theorem eval_fdiv_42_1000 : fdiv 42 1000 = 6052837899185947 / 144115188075855872 := by
  have h := roundD_eq (42/1000) (-5) 6052837899185947 (by norm_num)
    (by rw [show (-5:ℤ) = -((5:ℕ):ℤ) by norm_num, pow2_negOfNat]; norm_num)
    (by rw [show (-5:ℤ) + 1 = -((4:ℕ):ℤ) by norm_num, pow2_negOfNat]; norm_num)
    (by norm_num) (by norm_num)
    (by
      rw [show (52 - (-5:ℤ)) = ((57:ℕ):ℤ) by norm_num, pow2_natCast]
      apply rne_eq_of
      rw [abs_lt]
      norm_num)
  rw [fdiv, h, show ((-5:ℤ) - 52) = -((57:ℕ):ℤ) by norm_num, pow2_negOfNat]
  norm_num

theorem eval_fadd_10_A42 :
    fadd 10 (6052837899185947 / 144115188075855872) = 5653143432256815 / 562949953421312 := by
  have h := roundD_eq (10 + 6052837899185947 / 144115188075855872) 3 5653143432256815
    (by norm_num)
    (by rw [show (3:ℤ) = ((3:ℕ):ℤ) by norm_num, pow2_natCast]; norm_num)
    (by rw [show (3:ℤ) + 1 = ((4:ℕ):ℤ) by norm_num, pow2_natCast]; norm_num)
    (by norm_num) (by norm_num)
    (by
      rw [show (52 - (3:ℤ)) = ((49:ℕ):ℤ) by norm_num, pow2_natCast]
      apply rne_eq_of
      rw [abs_lt]
      norm_num)
  rw [fadd, h, show ((3:ℤ) - 52) = -((49:ℕ):ℤ) by norm_num, pow2_negOfNat]
  norm_num

theorem eval_fmul_T42_million :
    fmul (5653143432256815 / 562949953421312) 1000000 = 10042000 := by
  have h := roundD_eq (5653143432256815 / 562949953421312 * 1000000) 23 5391257698304000
    (by norm_num)
    (by rw [show (23:ℤ) = ((23:ℕ):ℤ) by norm_num, pow2_natCast]; norm_num)
    (by rw [show (23:ℤ) + 1 = ((24:ℕ):ℤ) by norm_num, pow2_natCast]; norm_num)
    (by norm_num) (by norm_num)
    (by
      rw [show (52 - (23:ℤ)) = ((29:ℕ):ℤ) by norm_num, pow2_natCast]
      apply rne_eq_of
      rw [abs_lt]
      norm_num)
  rw [fmul, h, show ((23:ℤ) - 52) = -((29:ℕ):ℤ) by norm_num, pow2_negOfNat]
  norm_num

theorem eval_fdiv_569_1000 : fdiv 569 1000 = 640637046993453 / 1125899906842624 := by
  have h := roundD_eq (569/1000) (-1) 5125096375947624 (by norm_num)
    (by rw [show (-1:ℤ) = -((1:ℕ):ℤ) by norm_num, pow2_negOfNat]; norm_num)
    (by rw [show (-1:ℤ) + 1 = ((0:ℕ):ℤ) by norm_num, pow2_natCast]; norm_num)
    (by norm_num) (by norm_num)
    (by
      rw [show (52 - (-1:ℤ)) = ((53:ℕ):ℤ) by norm_num, pow2_natCast]
      apply rne_eq_of
      rw [abs_lt]
      norm_num)
  rw [fdiv, h, show ((-1:ℤ) - 52) = -((53:ℕ):ℤ) by norm_num, pow2_negOfNat]
  norm_num

theorem eval_fadd_10_A569 :
    fadd 10 (640637046993453 / 1125899906842624) = 2974909028854923 / 281474976710656 := by
  have h := roundD_eq (10 + 640637046993453 / 1125899906842624) 3 5949818057709846
    (by norm_num)
    (by rw [show (3:ℤ) = ((3:ℕ):ℤ) by norm_num, pow2_natCast]; norm_num)
    (by rw [show (3:ℤ) + 1 = ((4:ℕ):ℤ) by norm_num, pow2_natCast]; norm_num)
    (by norm_num) (by norm_num)
    (by
      rw [show (52 - (3:ℤ)) = ((49:ℕ):ℤ) by norm_num, pow2_natCast]
      apply rne_tie_even
      · norm_num
      · norm_num)
  rw [fadd, h, show ((3:ℤ) - 52) = -((49:ℕ):ℤ) by norm_num, pow2_negOfNat]
  norm_num

theorem eval_fmul_T569_million :
    fmul (2974909028854923 / 281474976710656) 1000000 = 5674188668927999 / 536870912 := by
  have h := roundD_eq (2974909028854923 / 281474976710656 * 1000000) 23 5674188668927999
    (by norm_num)
    (by rw [show (23:ℤ) = ((23:ℕ):ℤ) by norm_num, pow2_natCast]; norm_num)
    (by rw [show (23:ℤ) + 1 = ((24:ℕ):ℤ) by norm_num, pow2_natCast]; norm_num)
    (by norm_num) (by norm_num)
    (by
      rw [show (52 - (23:ℤ)) = ((29:ℕ):ℤ) by norm_num, pow2_natCast]
      apply rne_eq_of
      rw [abs_lt]
      norm_num)
  rw [fmul, h, show ((23:ℤ) - 52) = -((29:ℕ):ℤ) by norm_num, pow2_negOfNat]
  norm_num

theorem eval_pytrunc_M569 : pytrunc (5674188668927999 / 536870912) = 10568999 := by
  apply pytrunc_eq_nonneg <;> norm_num

theorem eval_rne_M569 : rne (5674188668927999 / 536870912) = 10569000 := by
  apply rne_eq_of
  rw [abs_lt]
  norm_num

theorem eval_pytrunc_10042000 : pytrunc (10042000 : ℚ) = 10042000 := by
  apply pytrunc_eq_nonneg <;> norm_num

theorem eval_rne_10042000 : rne (10042000 : ℚ) = 10042000 := by
  apply rne_eq_of
  norm_num

theorem eval_fdiv_1_1000 : fdiv 1 1000 = 1152921504606847 / 1152921504606846976 := by
  have h := roundD_eq (1/1000) (-10) 4611686018427388 (by norm_num)
    (by rw [show (-10:ℤ) = -((10:ℕ):ℤ) by norm_num, pow2_negOfNat]; norm_num)
    (by rw [show (-10:ℤ) + 1 = -((9:ℕ):ℤ) by norm_num, pow2_negOfNat]; norm_num)
    (by norm_num) (by norm_num)
    (by
      rw [show (52 - (-10:ℤ)) = ((62:ℕ):ℤ) by norm_num, pow2_natCast]
      apply rne_eq_of
      rw [abs_lt]
      norm_num)
  rw [fdiv, h, show ((-10:ℤ) - 52) = -((62:ℕ):ℤ) by norm_num, pow2_negOfNat]
  norm_num

theorem eval_fdiv_2_1000 : fdiv 2 1000 = 1152921504606847 / 576460752303423488 := by
  have h := roundD_eq (2/1000) (-9) 4611686018427388 (by norm_num)
    (by rw [show (-9:ℤ) = -((9:ℕ):ℤ) by norm_num, pow2_negOfNat]; norm_num)
    (by rw [show (-9:ℤ) + 1 = -((8:ℕ):ℤ) by norm_num, pow2_negOfNat]; norm_num)
    (by norm_num) (by norm_num)
    (by
      rw [show (52 - (-9:ℤ)) = ((61:ℕ):ℤ) by norm_num, pow2_natCast]
      apply rne_eq_of
      rw [abs_lt]
      norm_num)
  rw [fdiv, h, show ((-9:ℤ) - 52) = -((61:ℕ):ℤ) by norm_num, pow2_negOfNat]
  norm_num

theorem eval_fadd_billion18_A1 :
    fadd 1000000000000000000 (1152921504606847 / 1152921504606846976) = 1000000000000000000 := by
  have h := roundD_eq (1000000000000000000 + 1152921504606847 / 1152921504606846976) 59
    7812500000000000
    (by norm_num)
    (by rw [show (59:ℤ) = ((59:ℕ):ℤ) by norm_num, pow2_natCast]; norm_num)
    (by rw [show (59:ℤ) + 1 = ((60:ℕ):ℤ) by norm_num, pow2_natCast]; norm_num)
    (by norm_num) (by norm_num)
    (by
      rw [show (52 - (59:ℤ)) = -((7:ℕ):ℤ) by norm_num, pow2_negOfNat]
      apply rne_eq_of
      rw [abs_lt]
      norm_num)
  rw [fadd, h, show ((59:ℤ) - 52) = ((7:ℕ):ℤ) by norm_num, pow2_natCast]
  norm_num

theorem eval_fadd_billion18_A2 :
    fadd 1000000000000000000 (1152921504606847 / 576460752303423488) = 1000000000000000000 := by
  have h := roundD_eq (1000000000000000000 + 1152921504606847 / 576460752303423488) 59
    7812500000000000
    (by norm_num)
    (by rw [show (59:ℤ) = ((59:ℕ):ℤ) by norm_num, pow2_natCast]; norm_num)
    (by rw [show (59:ℤ) + 1 = ((60:ℕ):ℤ) by norm_num, pow2_natCast]; norm_num)
    (by norm_num) (by norm_num)
    (by
      rw [show (52 - (59:ℤ)) = -((7:ℕ):ℤ) by norm_num, pow2_negOfNat]
      apply rne_eq_of
      rw [abs_lt]
      norm_num)
  rw [fadd, h, show ((59:ℤ) - 52) = ((7:ℕ):ℤ) by norm_num, pow2_natCast]
  norm_num

theorem eval_roundD_10 : roundD 10 = 10 := by
  have h := roundD_eq 10 3 5629499534213120 (by norm_num)
    (by rw [show (3:ℤ) = ((3:ℕ):ℤ) by norm_num, pow2_natCast]; norm_num)
    (by rw [show (3:ℤ) + 1 = ((4:ℕ):ℤ) by norm_num, pow2_natCast]; norm_num)
    (by norm_num) (by norm_num)
    (by
      rw [show (52 - (3:ℤ)) = ((49:ℕ):ℤ) by norm_num, pow2_natCast]
      apply rne_eq_of
      rw [abs_lt]
      norm_num)
  rw [h, show ((3:ℤ) - 52) = -((49:ℕ):ℤ) by norm_num, pow2_negOfNat]
  norm_num

theorem eval_fmul_10_million : fmul 10 1000000 = 10000000 := by
  have h := roundD_eq (10 * 1000000) 23 5368709120000000 (by norm_num)
    (by rw [show (23:ℤ) = ((23:ℕ):ℤ) by norm_num, pow2_natCast]; norm_num)
    (by rw [show (23:ℤ) + 1 = ((24:ℕ):ℤ) by norm_num, pow2_natCast]; norm_num)
    (by norm_num) (by norm_num)
    (by
      rw [show (52 - (23:ℤ)) = ((29:ℕ):ℤ) by norm_num, pow2_natCast]
      apply rne_eq_of
      rw [abs_lt]
      norm_num)
  rw [fmul, h, show ((23:ℤ) - 52) = -((29:ℕ):ℤ) by norm_num, pow2_negOfNat]
  norm_num

theorem eval_pytrunc_10000000 : pytrunc (10000000 : ℚ) = 10000000 := by
  apply pytrunc_eq_nonneg <;> norm_num

theorem eval_rne_10000000 : rne (10000000 : ℚ) = 10000000 := by
  apply rne_eq_of
  norm_num

end Fp

/-!
Association lists with a decidable key type model the Redis / SQL key-value
views the code uses.  `aset` overwrites the binding of a key, `alookup`
retrieves it.
-/

def alookup {α β : Type} [DecidableEq α] : List (α × β) → α → Option β
  | [], _ => none
  | p :: l, k => if p.1 = k then some p.2 else alookup l k

def aerase {α β : Type} [DecidableEq α] : List (α × β) → α → List (α × β)
  | [], _ => []
  | p :: l, k => if p.1 = k then aerase l k else p :: aerase l k

def aset {α β : Type} [DecidableEq α] (l : List (α × β)) (k : α) (v : β) : List (α × β) :=
  (k, v) :: aerase l k

theorem alookup_aerase_ne {α β : Type} [DecidableEq α] (l : List (α × β)) (k k' : α)
    (h : k' ≠ k) : alookup (aerase l k) k' = alookup l k' := by
  induction l with
  | nil => rfl
  | cons p l ih =>
    rw [aerase, alookup]
    by_cases hp : p.1 = k
    · rw [if_pos hp, if_neg (by rw [hp]; exact fun hc => h hc.symm), ih]
    · rw [if_neg hp, alookup]
      by_cases hpk : p.1 = k'
      · rw [if_pos hpk, if_pos hpk]
      · rw [if_neg hpk, if_neg hpk, ih]

theorem alookup_aset_self {α β : Type} [DecidableEq α] (l : List (α × β)) (k : α) (v : β) :
    alookup (aset l k v) k = some v := by
  rw [aset, alookup, if_pos rfl]

theorem alookup_aset_ne {α β : Type} [DecidableEq α] (l : List (α × β)) (k k' : α) (v : β)
    (h : k' ≠ k) : alookup (aset l k v) k' = alookup l k' := by
  rw [aset, alookup, if_neg (fun hc => h hc.symm)]
  exact alookup_aerase_ne l k k' h

/-!
Model of the core payment processor (`src/models.py`, `src/payment_processor.py`).

Money amounts are binary64 doubles, represented by their exact rational
values; timestamps are integers with `<` mirroring `datetime` comparison.
The Redis store is modelled by its two key families: `orders` for the
`order:{order_id}` keys and `amountIndex` for the `amount:{micro}` keys.
Key TTLs play no role in the properties below and are not modelled.
-/

namespace Core

/-- `OrderStatus` enum of `src/models.py`. -/
inductive OrderStatus
  | PENDING
  | PAID
  | EXPIRED
  | CANCELLED
deriving DecidableEq

/-- `Order` pydantic model of `src/models.py` (the fields the core logic
reads and writes). -/
structure Order where
  order_id : String
  base_amount : ℚ
  unique_suffix : ℕ
  total_amount : ℚ
  status : OrderStatus
  user_id : ℤ
  created_at : ℤ
  updated_at : ℤ
  expires_at : ℤ
deriving DecidableEq

/-- `PaymentCallback` model of `src/models.py`. -/
structure PaymentCallback where
  order_id : String
  amount : ℚ
  tx_hash : String
  block_number : ℤ
  timestamp : ℤ
  signature : String

/-- `Order.is_expired`: `datetime.now() > self.expires_at`. -/
def Order.is_expired (o : Order) (now : ℤ) : Bool := o.expires_at < now

/-- `Order.amount_in_micro_usdt`: `int(self.total_amount * 1000000)` —
binary64 multiplication followed by truncation toward zero. -/
def Order.amount_in_micro_usdt (o : Order) : ℤ :=
  Fp.pytrunc (Fp.fmul o.total_amount 1000000)

/-- `int(round(amount * 1000000))` as computed by
`PaymentProcessor.amounts_match` and `find_order_by_amount`. -/
def round_micro (amount : ℚ) : ℤ := Fp.rne (Fp.fmul amount 1000000)

/-- `PaymentProcessor.calculate_total_amount`: `base_amount + (suffix / 1000.0)`
in binary64 arithmetic. -/
def calculate_total_amount (base_amount : ℚ) (suffix : ℕ) : ℚ :=
  Fp.fadd base_amount (Fp.fdiv (suffix : ℚ) 1000)

/-- `PaymentProcessor.amounts_match`: equality of the two rounded
micro-USDT integers. -/
def amounts_match (amount1 amount2 : ℚ) : Bool :=
  round_micro amount1 == round_micro amount2

/-- The Redis state seen by the payment processor, plus the suffix pool. -/
structure SrcState where
  orders : List (String × Order)
  amountIndex : List (ℤ × String)
  pool : ℕ → Option String

/-- Modelled from the spec: the SuffixAllocator (`src/suffix_generator.py`,
imported by `payment_processor.py`) is not among the sources.  Per §4.2,
`Release(suffix, orderId)` is idempotent and releases the slot only if its
current binding equals `orderId`. -/
def release_suffix (st : SrcState) (suffix : ℕ) (order_id : String) : SrcState :=
  if st.pool suffix = some order_id then
    { st with pool := fun s => if s = suffix then none else st.pool s }
  else st

/-- `PaymentProcessor._save_order`: writes the order under its
`order:{order_id}` key and the order id under its `amount:{micro}` key. -/
def save_order (st : SrcState) (o : Order) : SrcState :=
  { st with
    orders := aset st.orders o.order_id o,
    amountIndex := aset st.amountIndex o.amount_in_micro_usdt o.order_id }

/-- `PaymentProcessor.get_order`. -/
def get_order (st : SrcState) (order_id : String) : Option Order :=
  alookup st.orders order_id

/-- `PaymentProcessor.find_order_by_amount`: looks up the
`amount:{int(round(amount * 1000000))}` index, then fetches the order. -/
def find_order_by_amount (st : SrcState) (amount : ℚ) : Option Order :=
  match alookup st.amountIndex (round_micro amount) with
  | none => none
  | some order_id => get_order st order_id

/-- `PaymentProcessor._is_valid_status_transition`. -/
def is_valid_status_transition : OrderStatus → OrderStatus → Bool
  | .PENDING, .PAID => true
  | .PENDING, .EXPIRED => true
  | .PENDING, .CANCELLED => true
  | _, _ => false

/-- `PaymentProcessor.update_order_status`: fetch, validate the transition,
release the suffix on entering a terminal status, save. -/
def update_order_status (now : ℤ) (st : SrcState) (order_id : String)
    (new_status : OrderStatus) : Bool × SrcState :=
  match get_order st order_id with
  | none => (false, st)
  | some o =>
    if is_valid_status_transition o.status new_status then
      (true, save_order
        (if new_status = .PAID ∨ new_status = .CANCELLED ∨ new_status = .EXPIRED
          then release_suffix st o.unique_suffix order_id
          else st)
        { o with status := new_status, updated_at := now })
    else (false, st)

/-- `PaymentProcessor.process_payment_callback`. -/
def process_payment_callback (now : ℤ) (st : SrcState) (cb : PaymentCallback) :
    Bool × SrcState :=
  match find_order_by_amount st cb.amount with
  | none => (false, st)
  | some o =>
    if o.order_id = cb.order_id then
      if amounts_match o.total_amount cb.amount then
        if o.is_expired now then
          (false, (update_order_status now st o.order_id .EXPIRED).2)
        else
          update_order_status now st o.order_id .PAID
      else (false, st)
    else (false, st)

/-- Loop body of `PaymentProcessor.cleanup_expired_orders` over the list of
order keys returned by `KEYS order:*`: each expired PENDING order is
transitioned to EXPIRED (which releases its suffix) and counted. -/
def cleanupLoop (now : ℤ) : List String → SrcState → ℕ × SrcState
  | [], st => (0, st)
  | k :: ks, st =>
    match get_order st k with
    | none => cleanupLoop now ks st
    | some o =>
      if o.is_expired now ∧ o.status = .PENDING then
        ((cleanupLoop now ks (update_order_status now st k .EXPIRED).2).1 + 1,
          (cleanupLoop now ks (update_order_status now st k .EXPIRED).2).2)
      else cleanupLoop now ks st

/-- `PaymentProcessor.cleanup_expired_orders`. -/
def cleanup_expired_orders (now : ℤ) (st : SrcState) : ℕ × SrcState :=
  cleanupLoop now (st.orders.map Prod.fst) st

theorem update_order_status_none (now : ℤ) (st : SrcState) (oid : String)
    (ns : OrderStatus) (h : get_order st oid = none) :
    update_order_status now st oid ns = (false, st) := by
  rw [update_order_status, h]

theorem update_order_status_invalid (now : ℤ) (st : SrcState) (oid : String)
    (ns : OrderStatus) (o : Order) (h : get_order st oid = some o)
    (hv : is_valid_status_transition o.status ns = false) :
    update_order_status now st oid ns = (false, st) := by
  rw [update_order_status, h]
  simp [hv]

theorem update_order_status_valid (now : ℤ) (st : SrcState) (oid : String)
    (ns : OrderStatus) (o : Order) (h : get_order st oid = some o)
    (hv : is_valid_status_transition o.status ns = true) :
    update_order_status now st oid ns
      = (true, save_order
          (if ns = .PAID ∨ ns = .CANCELLED ∨ ns = .EXPIRED
            then release_suffix st o.unique_suffix oid
            else st)
          { o with status := ns, updated_at := now }) := by
  rw [update_order_status, h]
  simp [hv]

theorem not_pending_no_transition (c ns : OrderStatus) (h : c ≠ .PENDING) :
    is_valid_status_transition c ns = false := by
  cases c with
  | PENDING => exact absurd rfl h
  | PAID => cases ns <;> rfl
  | EXPIRED => cases ns <;> rfl
  | CANCELLED => cases ns <;> rfl

theorem transition_characterization (c ns : OrderStatus)
    (h : is_valid_status_transition c ns = true) :
    c = .PENDING ∧ (ns = .PAID ∨ ns = .EXPIRED ∨ ns = .CANCELLED) := by
  cases c <;> cases ns <;> simp_all [is_valid_status_transition]

theorem update_order_status_not_pending (now : ℤ) (st : SrcState) (oid : String)
    (ns : OrderStatus) (o : Order) (h : get_order st oid = some o)
    (hs : o.status ≠ .PENDING) :
    update_order_status now st oid ns = (false, st) :=
  update_order_status_invalid now st oid ns o h (not_pending_no_transition o.status ns hs)

theorem process_payment_callback_paid_path (now : ℤ) (st : SrcState)
    (cb : PaymentCallback) (o : Order)
    (h1 : find_order_by_amount st cb.amount = some o)
    (h2 : o.order_id = cb.order_id)
    (h3 : amounts_match o.total_amount cb.amount = true)
    (h4 : o.is_expired now = false) :
    process_payment_callback now st cb = update_order_status now st o.order_id .PAID := by
  simp only [process_payment_callback, h1, if_pos h2, if_pos h3, h4]
  simp

theorem process_payment_callback_expired_path (now : ℤ) (st : SrcState)
    (cb : PaymentCallback) (o : Order)
    (h1 : find_order_by_amount st cb.amount = some o)
    (h2 : o.order_id = cb.order_id)
    (h3 : amounts_match o.total_amount cb.amount = true)
    (h4 : o.is_expired now = true) :
    process_payment_callback now st cb
      = (false, (update_order_status now st o.order_id .EXPIRED).2) := by
  simp only [process_payment_callback, h1, if_pos h2, if_pos h3, h4]
  simp

end Core

/-- C5: every mutation that `update_order_status` actually applies moves an
order from PENDING to one of PAID, EXPIRED, CANCELLED; on an order stored in
any of the terminal statuses PAID, EXPIRED, CANCELLED it returns false and
leaves the state (hence the stored order) unchanged, so status histories are
monotonic and acyclic. -/
theorem C5_state_machine_invariant (now : ℤ) (st : Core.SrcState) (oid : String)
    (ns : Core.OrderStatus) (o : Core.Order) (h : Core.get_order st oid = some o) :
    ((Core.update_order_status now st oid ns).1 = true →
      o.status = .PENDING ∧ (ns = .PAID ∨ ns = .EXPIRED ∨ ns = .CANCELLED))
    ∧ ((o.status = .PAID ∨ o.status = .EXPIRED ∨ o.status = .CANCELLED) →
      Core.update_order_status now st oid ns = (false, st)) := by
  constructor
  · intro htrue
    by_cases hv : Core.is_valid_status_transition o.status ns = true
    · exact Core.transition_characterization o.status ns hv
    · rw [Core.update_order_status_invalid now st oid ns o h
        (Bool.not_eq_true _ ▸ (eq_false_of_ne_true hv))] at htrue
      exact absurd htrue (by norm_num)
  · intro hterm
    apply Core.update_order_status_not_pending now st oid ns o h
    rcases hterm with h1 | h1 | h1 <;> rw [h1] <;> intro hc <;> exact absurd hc (by
      intro hcc; cases hcc)

/-- Witness for C5 at a concrete PAID order: the update is refused and the
state is returned unchanged. -/
theorem C5_state_machine_invariant_witness :
    ((Core.update_order_status 7 ⟨[("a", ⟨"a", 10, 42, 10, .PAID, 1, 0, 0, 100⟩)], [], fun _ => none⟩
        "a" .PENDING).1 = true →
      Core.OrderStatus.PAID = .PENDING ∧
        (Core.OrderStatus.PENDING = .PAID ∨ Core.OrderStatus.PENDING = .EXPIRED ∨
          Core.OrderStatus.PENDING = .CANCELLED))
    ∧ ((Core.OrderStatus.PAID = .PAID ∨ Core.OrderStatus.PAID = .EXPIRED ∨
          Core.OrderStatus.PAID = .CANCELLED) →
      Core.update_order_status 7
          ⟨[("a", ⟨"a", 10, 42, 10, .PAID, 1, 0, 0, 100⟩)], [], fun _ => none⟩ "a" .PENDING
        = (false, ⟨[("a", ⟨"a", 10, 42, 10, .PAID, 1, 0, 0, 100⟩)], [], fun _ => none⟩)) :=
  C5_state_machine_invariant 7
    ⟨[("a", ⟨"a", 10, 42, 10, .PAID, 1, 0, 0, 100⟩)], [], fun _ => none⟩
    "a" .PENDING ⟨"a", 10, 42, 10, .PAID, 1, 0, 0, 100⟩ (by rfl)

/-- C3 (amended): delivering a callback that reaches an order already PAID
returns failure (`False`), not success, and leaves the stored state exactly
as it was — no second suffix release and no further status write. -/
theorem C3_replay_no_state_change (now : ℤ) (st : Core.SrcState)
    (cb : Core.PaymentCallback) (o : Core.Order)
    (h1 : Core.find_order_by_amount st cb.amount = some o)
    (h2 : Core.get_order st o.order_id = some o) (h3 : o.status = .PAID) :
    Core.process_payment_callback now st cb = (false, st) := by
  have hupd : ∀ ns, Core.update_order_status now st o.order_id ns = (false, st) :=
    fun ns => Core.update_order_status_not_pending now st o.order_id ns o h2
      (by rw [h3]; intro hc; cases hc)
  simp only [Core.process_payment_callback, h1]
  by_cases hid : o.order_id = cb.order_id
  · rw [if_pos hid]
    by_cases ham : Core.amounts_match o.total_amount cb.amount = true
    · rw [if_pos ham]
      by_cases hex : o.is_expired now = true
      · rw [if_pos hex, hupd .EXPIRED]
      · rw [if_neg hex, hupd .PAID]
    · rw [if_neg ham]
  · rw [if_neg hid]

/-- Witness for C3's amended theorem on a concrete PAID order reached by a
second, identical callback. -/
theorem C3_replay_no_state_change_witness :
    Core.process_payment_callback 50
        ⟨[("a", ⟨"a", 9, 42, 10, .PAID, 1, 0, 0, 100⟩)], [(10000000, "a")], fun _ => none⟩
        ⟨"a", 10, "tx", 1, 5, "sig"⟩
      = (false, ⟨[("a", ⟨"a", 9, 42, 10, .PAID, 1, 0, 0, 100⟩)], [(10000000, "a")],
          fun _ => none⟩) := by
  apply C3_replay_no_state_change 50 _ _ ⟨"a", 9, 42, 10, .PAID, 1, 0, 0, 100⟩
  · show Core.find_order_by_amount _ 10 = _
    rw [Core.find_order_by_amount, Core.round_micro, Fp.eval_fmul_10_million,
      Fp.eval_rne_10000000]
    rfl
  · rfl
  · rfl

/-- C6: a callback that matches a PENDING order whose `expires_at` lies in
the past makes the reconciler transition the order to EXPIRED and report the
payment as rejected; the order is never set to PAID. -/
theorem C6_late_payment_never_accepted (now : ℤ) (st : Core.SrcState)
    (cb : Core.PaymentCallback) (o : Core.Order)
    (h1 : Core.find_order_by_amount st cb.amount = some o)
    (h2 : Core.get_order st o.order_id = some o)
    (h3 : o.status = .PENDING)
    (h4 : o.order_id = cb.order_id)
    (h5 : Core.amounts_match o.total_amount cb.amount = true)
    (h6 : o.expires_at < now) :
    (Core.process_payment_callback now st cb).1 = false
    ∧ Core.get_order (Core.process_payment_callback now st cb).2 cb.order_id
        = some { o with status := .EXPIRED, updated_at := now } := by
  have hexp : o.is_expired now = true := by
    simp [Core.Order.is_expired, h6]
  simp only [Core.process_payment_callback, h1, if_pos h4, if_pos h5, hexp, if_true]
  rw [Core.update_order_status_valid now st o.order_id .EXPIRED o h2 (by rw [h3]; rfl)]
  refine ⟨trivial, ?_⟩
  rw [← h4]
  exact alookup_aset_self _ _ _

/-- Witness for C6 on a concrete expired PENDING order. -/
theorem C6_late_payment_never_accepted_witness :
    (Core.process_payment_callback 200
        ⟨[("a", ⟨"a", 9, 42, 10, .PENDING, 1, 0, 0, 100⟩)], [(10000000, "a")], fun _ => none⟩
        ⟨"a", 10, "tx", 1, 5, "sig"⟩).1 = false
    ∧ Core.get_order (Core.process_payment_callback 200
        ⟨[("a", ⟨"a", 9, 42, 10, .PENDING, 1, 0, 0, 100⟩)], [(10000000, "a")], fun _ => none⟩
        ⟨"a", 10, "tx", 1, 5, "sig"⟩).2 "a"
        = some ⟨"a", 9, 42, 10, .EXPIRED, 1, 0, 200, 100⟩ := by
  have h := C6_late_payment_never_accepted 200
    ⟨[("a", ⟨"a", 9, 42, 10, .PENDING, 1, 0, 0, 100⟩)], [(10000000, "a")], fun _ => none⟩
    ⟨"a", 10, "tx", 1, 5, "sig"⟩ ⟨"a", 9, 42, 10, .PENDING, 1, 0, 0, 100⟩
    (by
      show Core.find_order_by_amount _ 10 = _
      rw [Core.find_order_by_amount, Core.round_micro, Fp.eval_fmul_10_million,
        Fp.eval_rne_10000000]
      rfl)
    rfl rfl rfl
    (by
      rw [Core.amounts_match]
      exact beq_self_eq_true _)
    (by norm_num)
  exact h

theorem alookup_singleton {α β : Type} [DecidableEq α] (k : α) (v : β) :
    alookup [(k, v)] k = some v := by
  rw [alookup, if_pos rfl]

/-- C1: an order created with base 10.000 and suffix 42 (total 10.042) that is
still PENDING and not past `expires_at` is stored under its amount key; a
callback carrying amount 10.042 and the order's id is found by the
amount-indexed lookup, sets the order's status to PAID and releases suffix 42
back to the pool. -/
theorem C1_end_to_end_reconciliation (oid tx sig : String) (uid c0 u0 bn ts exp now : ℤ)
    (pool0 : ℕ → Option String) (hpool : pool0 42 = some oid) (hnow : now ≤ exp) :
    (Core.process_payment_callback now
        (Core.save_order ⟨[], [], pool0⟩
          ⟨oid, 10, 42, Core.calculate_total_amount 10 42, .PENDING, uid, c0, u0, exp⟩)
        ⟨oid, Core.calculate_total_amount 10 42, tx, bn, ts, sig⟩).1 = true
    ∧ Core.get_order (Core.process_payment_callback now
        (Core.save_order ⟨[], [], pool0⟩
          ⟨oid, 10, 42, Core.calculate_total_amount 10 42, .PENDING, uid, c0, u0, exp⟩)
        ⟨oid, Core.calculate_total_amount 10 42, tx, bn, ts, sig⟩).2 oid
        = some ⟨oid, 10, 42, Core.calculate_total_amount 10 42, .PAID, uid, c0, now, exp⟩
    ∧ (Core.process_payment_callback now
        (Core.save_order ⟨[], [], pool0⟩
          ⟨oid, 10, 42, Core.calculate_total_amount 10 42, .PENDING, uid, c0, u0, exp⟩)
        ⟨oid, Core.calculate_total_amount 10 42, tx, bn, ts, sig⟩).2.pool 42 = none := by
  have hT : Core.calculate_total_amount 10 42 = 5653143432256815 / 562949953421312 := by
    rw [Core.calculate_total_amount, show ((42:ℕ):ℚ) = 42 by norm_num,
      Fp.eval_fdiv_42_1000, Fp.eval_fadd_10_A42]
  have hmicro : Core.Order.amount_in_micro_usdt
      ⟨oid, 10, 42, Core.calculate_total_amount 10 42, .PENDING, uid, c0, u0, exp⟩
      = 10042000 := by
    rw [Core.Order.amount_in_micro_usdt]
    show Fp.pytrunc (Fp.fmul (Core.calculate_total_amount 10 42) 1000000) = 10042000
    rw [hT, Fp.eval_fmul_T42_million, Fp.eval_pytrunc_10042000]
  have hrm : Core.round_micro (Core.calculate_total_amount 10 42) = 10042000 := by
    rw [Core.round_micro, hT, Fp.eval_fmul_T42_million, Fp.eval_rne_10042000]
  have hst0 : Core.save_order ⟨[], [], pool0⟩
      ⟨oid, 10, 42, Core.calculate_total_amount 10 42, .PENDING, uid, c0, u0, exp⟩
      = ⟨[(oid, ⟨oid, 10, 42, Core.calculate_total_amount 10 42, .PENDING, uid, c0, u0, exp⟩)],
          [((10042000 : ℤ), oid)], pool0⟩ := by
    rw [Core.save_order, hmicro]
    rfl
  rw [hst0]
  have hget : Core.get_order
      ⟨[(oid, ⟨oid, 10, 42, Core.calculate_total_amount 10 42, .PENDING, uid, c0, u0, exp⟩)],
        [((10042000 : ℤ), oid)], pool0⟩ oid
      = some ⟨oid, 10, 42, Core.calculate_total_amount 10 42, .PENDING, uid, c0, u0, exp⟩ := by
    rw [Core.get_order]
    exact alookup_singleton _ _
  have hfind : Core.find_order_by_amount
      ⟨[(oid, ⟨oid, 10, 42, Core.calculate_total_amount 10 42, .PENDING, uid, c0, u0, exp⟩)],
        [((10042000 : ℤ), oid)], pool0⟩ (Core.calculate_total_amount 10 42)
      = some ⟨oid, 10, 42, Core.calculate_total_amount 10 42, .PENDING, uid, c0, u0, exp⟩ := by
    rw [Core.find_order_by_amount, hrm, alookup_singleton]
    exact hget
  have hexp : Core.Order.is_expired
      ⟨oid, 10, 42, Core.calculate_total_amount 10 42, .PENDING, uid, c0, u0, exp⟩ now
      = false := by
    rw [Core.Order.is_expired]
    exact decide_eq_false (not_lt.mpr hnow)
  have hupd := Core.update_order_status_valid now
    ⟨[(oid, ⟨oid, 10, 42, Core.calculate_total_amount 10 42, .PENDING, uid, c0, u0, exp⟩)],
      [((10042000 : ℤ), oid)], pool0⟩ oid .PAID
    ⟨oid, 10, 42, Core.calculate_total_amount 10 42, .PENDING, uid, c0, u0, exp⟩ hget
    (show Core.is_valid_status_transition .PENDING .PAID = true from rfl)
  rw [Core.process_payment_callback_paid_path now
    ⟨[(oid, ⟨oid, 10, 42, Core.calculate_total_amount 10 42, .PENDING, uid, c0, u0, exp⟩)],
      [((10042000 : ℤ), oid)], pool0⟩
    ⟨oid, Core.calculate_total_amount 10 42, tx, bn, ts, sig⟩
    ⟨oid, 10, 42, Core.calculate_total_amount 10 42, .PENDING, uid, c0, u0, exp⟩ hfind rfl
    (by rw [Core.amounts_match]; exact beq_self_eq_true _) hexp]
  rw [hupd]
  rw [if_pos (Or.inl rfl)]
  rw [Core.release_suffix]
  rw [if_pos (by exact hpool)]
  refine ⟨rfl, ?_, ?_⟩
  · rw [Core.get_order, Core.save_order]
    exact alookup_aset_self _ _ _
  · rw [Core.save_order]
    simp

/-- Witness for C1 at concrete inputs. -/
theorem C1_end_to_end_reconciliation_witness :
    (Core.process_payment_callback 0
        (Core.save_order ⟨[], [], fun s => if s = 42 then some "a" else none⟩
          ⟨"a", 10, 42, Core.calculate_total_amount 10 42, .PENDING, 7, 0, 0, 100⟩)
        ⟨"a", Core.calculate_total_amount 10 42, "tx", 1, 5, "sig"⟩).1 = true
    ∧ Core.get_order (Core.process_payment_callback 0
        (Core.save_order ⟨[], [], fun s => if s = 42 then some "a" else none⟩
          ⟨"a", 10, 42, Core.calculate_total_amount 10 42, .PENDING, 7, 0, 0, 100⟩)
        ⟨"a", Core.calculate_total_amount 10 42, "tx", 1, 5, "sig"⟩).2 "a"
        = some ⟨"a", 10, 42, Core.calculate_total_amount 10 42, .PAID, 7, 0, 0, 100⟩
    ∧ (Core.process_payment_callback 0
        (Core.save_order ⟨[], [], fun s => if s = 42 then some "a" else none⟩
          ⟨"a", 10, 42, Core.calculate_total_amount 10 42, .PENDING, 7, 0, 0, 100⟩)
        ⟨"a", Core.calculate_total_amount 10 42, "tx", 1, 5, "sig"⟩).2.pool 42 = none :=
  C1_end_to_end_reconciliation "a" "tx" "sig" 7 0 0 1 5 100 0
    (fun s => if s = 42 then some "a" else none) (by simp) (by norm_num)

/-- C2 (code bug): for base 10.0 and suffix 569 the stored micro-unit key
`int(total_amount * 1000000)` truncates to 10568999, while both the
specified value `round(base * 10^6) + suffix * 1000` and the micro value the
payment-side lookup computes are 10569000, so the reconciler's amount lookup
cannot find the order the creation path stored. -/
theorem C2_micro_encoding_divergence :
    Core.Order.amount_in_micro_usdt
        ⟨"o", 10, 569, Core.calculate_total_amount 10 569, .PENDING, 1, 0, 0, 100⟩
      = 10568999
    ∧ Core.round_micro (Core.calculate_total_amount 10 569) = 10569000
    ∧ Core.Order.amount_in_micro_usdt
        ⟨"o", 10, 569, Core.calculate_total_amount 10 569, .PENDING, 1, 0, 0, 100⟩
      ≠ Fp.rne (Fp.fmul 10 1000000) + 569 * 1000
    ∧ Core.find_order_by_amount
        (Core.save_order ⟨[], [], fun _ => none⟩
          ⟨"o", 10, 569, Core.calculate_total_amount 10 569, .PENDING, 1, 0, 0, 100⟩)
        (Core.calculate_total_amount 10 569) = none := by
  have hT : Core.calculate_total_amount 10 569 = 2974909028854923 / 281474976710656 := by
    rw [Core.calculate_total_amount, show ((569:ℕ):ℚ) = 569 by norm_num,
      Fp.eval_fdiv_569_1000, Fp.eval_fadd_10_A569]
  have hmicro : Core.Order.amount_in_micro_usdt
      ⟨"o", 10, 569, Core.calculate_total_amount 10 569, .PENDING, 1, 0, 0, 100⟩
      = 10568999 := by
    rw [Core.Order.amount_in_micro_usdt]
    show Fp.pytrunc (Fp.fmul (Core.calculate_total_amount 10 569) 1000000) = 10568999
    rw [hT, Fp.eval_fmul_T569_million, Fp.eval_pytrunc_M569]
  have hrm : Core.round_micro (Core.calculate_total_amount 10 569) = 10569000 := by
    rw [Core.round_micro, hT, Fp.eval_fmul_T569_million, Fp.eval_rne_M569]
  have hbase : Fp.rne (Fp.fmul 10 1000000) = 10000000 := by
    rw [Fp.eval_fmul_10_million, Fp.eval_rne_10000000]
  have hst : Core.save_order ⟨[], [], fun _ => none⟩
      ⟨"o", 10, 569, Core.calculate_total_amount 10 569, .PENDING, 1, 0, 0, 100⟩
      = ⟨[("o", ⟨"o", 10, 569, Core.calculate_total_amount 10 569, .PENDING, 1, 0, 0, 100⟩)],
          [((10568999 : ℤ), "o")], fun _ => none⟩ := by
    rw [Core.save_order, hmicro]
    rfl
  have hlook : alookup [((10568999 : ℤ), "o")] (10569000 : ℤ) = none := by
    rw [alookup, if_neg (by norm_num)]
    rfl
  refine ⟨hmicro, hrm, ?_, ?_⟩
  · rw [hmicro, hbase]
    norm_num
  · rw [hst, Core.find_order_by_amount, hrm, hlook]

/-- C3 counterexample: the first delivery of the 10.042 callback succeeds
(returns True), and delivering the identical callback a second time returns
False — not success as the claim states. -/
theorem C3_replay_returns_failure_counterexample :
    (Core.process_payment_callback 0
        (Core.save_order ⟨[], [], fun s => if s = 42 then some "a" else none⟩
          ⟨"a", 10, 42, Core.calculate_total_amount 10 42, .PENDING, 7, 0, 0, 100⟩)
        ⟨"a", Core.calculate_total_amount 10 42, "tx", 1, 5, "sig"⟩).1 = true
    ∧ (Core.process_payment_callback 0
        (Core.process_payment_callback 0
          (Core.save_order ⟨[], [], fun s => if s = 42 then some "a" else none⟩
            ⟨"a", 10, 42, Core.calculate_total_amount 10 42, .PENDING, 7, 0, 0, 100⟩)
          ⟨"a", Core.calculate_total_amount 10 42, "tx", 1, 5, "sig"⟩).2
        ⟨"a", Core.calculate_total_amount 10 42, "tx", 1, 5, "sig"⟩).1 = false := by
  have hT : Core.calculate_total_amount 10 42 = 5653143432256815 / 562949953421312 := by
    rw [Core.calculate_total_amount, show ((42:ℕ):ℚ) = 42 by norm_num,
      Fp.eval_fdiv_42_1000, Fp.eval_fadd_10_A42]
  have hmicro0 : Core.Order.amount_in_micro_usdt
      ⟨"a", 10, 42, Core.calculate_total_amount 10 42, .PENDING, 7, 0, 0, 100⟩
      = 10042000 := by
    rw [Core.Order.amount_in_micro_usdt]
    show Fp.pytrunc (Fp.fmul (Core.calculate_total_amount 10 42) 1000000) = 10042000
    rw [hT, Fp.eval_fmul_T42_million, Fp.eval_pytrunc_10042000]
  have hmicro1 : Core.Order.amount_in_micro_usdt
      ⟨"a", 10, 42, Core.calculate_total_amount 10 42, .PAID, 7, 0, 0, 100⟩
      = 10042000 := by
    rw [Core.Order.amount_in_micro_usdt]
    show Fp.pytrunc (Fp.fmul (Core.calculate_total_amount 10 42) 1000000) = 10042000
    rw [hT, Fp.eval_fmul_T42_million, Fp.eval_pytrunc_10042000]
  have hrm : Core.round_micro (Core.calculate_total_amount 10 42) = 10042000 := by
    rw [Core.round_micro, hT, Fp.eval_fmul_T42_million, Fp.eval_rne_10042000]
  have hst0 : Core.save_order ⟨[], [], fun s => if s = 42 then some "a" else none⟩
      ⟨"a", 10, 42, Core.calculate_total_amount 10 42, .PENDING, 7, 0, 0, 100⟩
      = ⟨[("a", ⟨"a", 10, 42, Core.calculate_total_amount 10 42, .PENDING, 7, 0, 0, 100⟩)],
          [((10042000 : ℤ), "a")], fun s => if s = 42 then some "a" else none⟩ := by
    rw [Core.save_order, hmicro0]
    rfl
  have hget0 : Core.get_order
      ⟨[("a", ⟨"a", 10, 42, Core.calculate_total_amount 10 42, .PENDING, 7, 0, 0, 100⟩)],
        [((10042000 : ℤ), "a")], fun s => if s = 42 then some "a" else none⟩ "a"
      = some ⟨"a", 10, 42, Core.calculate_total_amount 10 42, .PENDING, 7, 0, 0, 100⟩ := by
    rw [Core.get_order]
    exact alookup_singleton _ _
  have hfind0 : Core.find_order_by_amount
      ⟨[("a", ⟨"a", 10, 42, Core.calculate_total_amount 10 42, .PENDING, 7, 0, 0, 100⟩)],
        [((10042000 : ℤ), "a")], fun s => if s = 42 then some "a" else none⟩
      (Core.calculate_total_amount 10 42)
      = some ⟨"a", 10, 42, Core.calculate_total_amount 10 42, .PENDING, 7, 0, 0, 100⟩ := by
    rw [Core.find_order_by_amount, hrm, alookup_singleton]
    exact hget0
  have hfirst : Core.process_payment_callback 0
      ⟨[("a", ⟨"a", 10, 42, Core.calculate_total_amount 10 42, .PENDING, 7, 0, 0, 100⟩)],
        [((10042000 : ℤ), "a")], fun s => if s = 42 then some "a" else none⟩
      ⟨"a", Core.calculate_total_amount 10 42, "tx", 1, 5, "sig"⟩
      = (true, ⟨[("a", ⟨"a", 10, 42, Core.calculate_total_amount 10 42, .PAID, 7, 0, 0, 100⟩)],
          [((10042000 : ℤ), "a")], fun s => if s = 42 then none else
            if s = 42 then some "a" else none⟩) := by
    rw [Core.process_payment_callback_paid_path 0
      ⟨[("a", ⟨"a", 10, 42, Core.calculate_total_amount 10 42, .PENDING, 7, 0, 0, 100⟩)],
        [((10042000 : ℤ), "a")], fun s => if s = 42 then some "a" else none⟩
      ⟨"a", Core.calculate_total_amount 10 42, "tx", 1, 5, "sig"⟩
      ⟨"a", 10, 42, Core.calculate_total_amount 10 42, .PENDING, 7, 0, 0, 100⟩ hfind0 rfl
      (by rw [Core.amounts_match]; exact beq_self_eq_true _)
      (by rw [Core.Order.is_expired]; exact decide_eq_false (by norm_num))]
    rw [Core.update_order_status_valid 0 _ _ .PAID
      ⟨"a", 10, 42, Core.calculate_total_amount 10 42, .PENDING, 7, 0, 0, 100⟩ hget0
      (show Core.is_valid_status_transition .PENDING .PAID = true from rfl)]
    rw [if_pos (Or.inl rfl), Core.release_suffix]
    rw [if_pos (show (if (42:ℕ) = 42 then some "a" else none) = some "a" by simp)]
    rw [Core.save_order, hmicro1]
    rfl
  rw [hst0, hfirst]
  refine ⟨rfl, ?_⟩
  have hget1 : Core.get_order
      ⟨[("a", ⟨"a", 10, 42, Core.calculate_total_amount 10 42, .PAID, 7, 0, 0, 100⟩)],
        [((10042000 : ℤ), "a")], fun s => if s = 42 then none else
          if s = 42 then some "a" else none⟩ "a"
      = some ⟨"a", 10, 42, Core.calculate_total_amount 10 42, .PAID, 7, 0, 0, 100⟩ := by
    rw [Core.get_order]
    exact alookup_singleton _ _
  have hfind1 : Core.find_order_by_amount
      ⟨[("a", ⟨"a", 10, 42, Core.calculate_total_amount 10 42, .PAID, 7, 0, 0, 100⟩)],
        [((10042000 : ℤ), "a")], fun s => if s = 42 then none else
          if s = 42 then some "a" else none⟩
      (Core.calculate_total_amount 10 42)
      = some ⟨"a", 10, 42, Core.calculate_total_amount 10 42, .PAID, 7, 0, 0, 100⟩ := by
    rw [Core.find_order_by_amount, hrm, alookup_singleton]
    exact hget1
  rw [Core.process_payment_callback_paid_path 0
    ⟨[("a", ⟨"a", 10, 42, Core.calculate_total_amount 10 42, .PAID, 7, 0, 0, 100⟩)],
      [((10042000 : ℤ), "a")], fun s => if s = 42 then none else
        if s = 42 then some "a" else none⟩
    ⟨"a", Core.calculate_total_amount 10 42, "tx", 1, 5, "sig"⟩
    ⟨"a", 10, 42, Core.calculate_total_amount 10 42, .PAID, 7, 0, 0, 100⟩ hfind1 rfl
    (by rw [Core.amounts_match]; exact beq_self_eq_true _)
    (by rw [Core.Order.is_expired]; exact decide_eq_false (by norm_num))]
  rw [Core.update_order_status_not_pending 0 _ _ .PAID
    ⟨"a", 10, 42, Core.calculate_total_amount 10 42, .PAID, 7, 0, 0, 100⟩ hget1
    (by intro hc; cases hc)]

/-!
Model of the SQL-backed service layer (`backend/api`): the order and user
repositories, `WalletService.process_deposit`, and the TRC20 webhook route.

Order rows (`DepositOrder`) carry their status as a string.  Balances are
kept per user as integer micro-USDT (`User.balance_micro_usdt`).  The HMAC
primitive and Python's float-to-string rendering are abstract function
parameters: the handler's control flow never inspects their output beyond
string equality.
-/

namespace Backend

/-- A `DepositOrder` row as read and written by `OrderRepository`. -/
structure DbOrder where
  order_id : String
  user_id : ℤ
  base_amount : ℚ
  unique_suffix : ℤ
  total_amount : ℚ
  amount_micro_usdt : ℤ
  status : String
  created_at : ℤ
  expires_at : ℤ
  updated_at : ℤ
deriving DecidableEq

/-- The database state the services touch: order rows keyed by `order_id`
and `User.balance_micro_usdt` keyed by `user_id`. -/
structure DbState where
  orders : List (String × DbOrder)
  balances : List (ℤ × ℤ)

/-- `OrderRepository.get_by_order_id`. -/
def get_by_order_id (st : DbState) (order_id : String) : Option DbOrder :=
  alookup st.orders order_id

/-- `OrderRepository.create_order`: builds the row with `status="PENDING"`,
`amount_micro_usdt = int(total_amount * 1_000_000)` and
`expires_at = now + timeout_minutes minutes`, and inserts it.  The
uuid-derived `order_id` is passed in by the caller of the model. -/
def create_order (st : DbState) (order_id : String) (user_id : ℤ)
    (base_amount : ℚ) (unique_suffix : ℤ) (total_amount : ℚ)
    (timeout_minutes : ℤ) (now : ℤ) : DbOrder × DbState :=
  (⟨order_id, user_id, base_amount, unique_suffix, total_amount,
      Fp.pytrunc (Fp.fmul total_amount 1000000), "PENDING", now,
      now + timeout_minutes * 60, now⟩,
    { st with orders := (aset st.orders order_id
      ⟨order_id, user_id, base_amount, unique_suffix, total_amount,
        Fp.pytrunc (Fp.fmul total_amount 1000000), "PENDING", now,
        now + timeout_minutes * 60, now⟩) })

/-- `OrderRepository.update_status`: sets `status` and `updated_at` on the
row if it exists. -/
def update_status (st : DbState) (order_id : String) (status : String)
    (now : ℤ) : DbState :=
  match alookup st.orders order_id with
  | none => st
  | some o => { st with orders := (aset st.orders order_id
      { o with status := status, updated_at := now }) }

/-- `UserRepository.update_balance`: adds `int(amount * 1_000_000)`
micro-units to the user's balance; no-op when the user does not exist. -/
def update_balance (st : DbState) (user_id : ℤ) (amount : ℚ) : DbState :=
  match alookup st.balances user_id with
  | none => st
  | some b => { st with balances := (aset st.balances user_id
      (b + Fp.pytrunc (Fp.fmul amount 1000000))) }

/-- `WalletService.process_deposit`: requires the stored status to be the
lowercase string `"pending"`, then marks the order `"paid"` and credits the
user's balance with `base_amount`. -/
def process_deposit (st : DbState) (order_id : String) (now : ℤ) :
    Bool × DbState :=
  match get_by_order_id st order_id with
  | none => (false, st)
  | some o =>
    if o.status ≠ "pending" then (false, st)
    else (true, update_balance (update_status st order_id "paid" now)
      o.user_id o.base_amount)

/-- The TRC20 callback payload (`TRC20CallbackRequest`). -/
structure Trc20CallbackRequest where
  order_id : String
  tx_hash : String
  from_address : String
  to_address : String
  amount_usdt : ℚ
  block_number : ℤ
  timestamp : ℤ

/-- `generate_trc20_signature`: hex HMAC-SHA256 of the concatenation
`f"{order_id}{amount_usdt}{tx_hash}"` under the shared secret.  `hmacHex`
abstracts the HMAC-SHA256 hex digest, `floatRepr` abstracts Python's
float-to-string rendering of `amount_usdt`. -/
def generate_trc20_signature (hmacHex : String → String → String)
    (floatRepr : ℚ → String) (secret : String) (order_id : String)
    (amount_usdt : ℚ) (tx_hash : String) : String :=
  hmacHex secret (order_id ++ floatRepr amount_usdt ++ tx_hash)

/-- `verify_trc20_signature`: constant-time comparison of the expected
signature with the submitted one — semantically, string equality. -/
def verify_trc20_signature (hmacHex : String → String → String)
    (floatRepr : ℚ → String) (secret : String) (order_id : String)
    (amount_usdt : ℚ) (tx_hash : String) (signature : String) : Bool :=
  generate_trc20_signature hmacHex floatRepr secret order_id amount_usdt tx_hash
    == signature

/-- The `trc20_callback` route handler, returning the HTTP status code and
the database state after the request.  An invalid signature is rejected with
400 before any order access.  When the signature verifies, the handler
executes `order_service = OrderService(db)`; `OrderService.__init__`
requires the two arguments `(order_repo, setting_repo)`, so this call raises
`TypeError` — outside the handler's `try:` block — and FastAPI turns the
uncaught exception into HTTP 500 with no database access performed. -/
def trc20_callback (hmacHex : String → String → String)
    (floatRepr : ℚ → String) (secret : String) (st : DbState)
    (cb : Trc20CallbackRequest) (x_signature : String) : ℕ × DbState :=
  if verify_trc20_signature hmacHex floatRepr secret cb.order_id cb.amount_usdt
      cb.tx_hash x_signature then
    (500, st)
  else
    (400, st)

end Backend

/-- C4: a callback whose signature header is not the hex HMAC-SHA256 of the
concatenation of order_id, amount and tx_hash under the shared secret is
rejected with HTTP 400 before any order lookup or write: the database state
is returned unchanged, so the status of every stored order is unchanged,
regardless of the payload's amount and order_id. -/
theorem C4_invalid_signature_rejected (hmacHex : String → String → String)
    (floatRepr : ℚ → String) (secret : String) (st : Backend.DbState)
    (cb : Backend.Trc20CallbackRequest) (x_signature : String)
    (h : x_signature ≠ Backend.generate_trc20_signature hmacHex floatRepr secret
      cb.order_id cb.amount_usdt cb.tx_hash) :
    Backend.trc20_callback hmacHex floatRepr secret st cb x_signature = (400, st)
    ∧ ∀ oid, alookup (Backend.trc20_callback hmacHex floatRepr secret st cb
        x_signature).2.orders oid = alookup st.orders oid := by
  have hv : Backend.verify_trc20_signature hmacHex floatRepr secret cb.order_id
      cb.amount_usdt cb.tx_hash x_signature = false := by
    rw [Backend.verify_trc20_signature]
    exact beq_eq_false_iff_ne.mpr (fun hc => h hc.symm)
  constructor
  · rw [Backend.trc20_callback, hv]
    simp
  · intro oid
    rw [Backend.trc20_callback, hv]
    simp

/-- Witness for C4 at a concrete forged signature. -/
theorem C4_invalid_signature_rejected_witness :
    Backend.trc20_callback (fun s m => s ++ "|" ++ m) (fun _ => "amt") "key"
        ⟨[("o1", ⟨"o1", 3, 10, 42, 10, 10000000, "PENDING", 0, 100, 0⟩)], [(3, 0)]⟩
        ⟨"o1", "tx", "from", "to", 10, 1, 5⟩ "forged"
      = (400, ⟨[("o1", ⟨"o1", 3, 10, 42, 10, 10000000, "PENDING", 0, 100, 0⟩)], [(3, 0)]⟩)
    ∧ ∀ oid, alookup (Backend.trc20_callback (fun s m => s ++ "|" ++ m) (fun _ => "amt") "key"
        ⟨[("o1", ⟨"o1", 3, 10, 42, 10, 10000000, "PENDING", 0, 100, 0⟩)], [(3, 0)]⟩
        ⟨"o1", "tx", "from", "to", 10, 1, 5⟩ "forged").2.orders oid
      = alookup (⟨[("o1", ⟨"o1", 3, 10, 42, 10, 10000000, "PENDING", 0, 100, 0⟩)],
          [(3, 0)]⟩ : Backend.DbState).orders oid :=
  C4_invalid_signature_rejected (fun s m => s ++ "|" ++ m) (fun _ => "amt") "key"
    ⟨[("o1", ⟨"o1", 3, 10, 42, 10, 10000000, "PENDING", 0, 100, 0⟩)], [(3, 0)]⟩
    ⟨"o1", "tx", "from", "to", 10, 1, 5⟩ "forged" (by decide)

/-- C8 (code bug): a correctly signed callback that matches a stored PENDING
order with the exact amount is answered with HTTP 500, not 200: after
signature verification the handler constructs `OrderService(db)`, whose
`__init__` requires `(order_repo, setting_repo)`, raising `TypeError`
outside the `try:` block.  200 and 404 are unreachable. -/
theorem C8_webhook_valid_signature_crashes_500 :
    Backend.trc20_callback (fun s m => "hmac:" ++ s ++ ":" ++ m) (fun _ => "10.042")
        "secret"
        ⟨[("ORD1", ⟨"ORD1", 3, 10, 42, 10, 10000000, "PENDING", 0, 100, 0⟩)], [(3, 0)]⟩
        ⟨"ORD1", "tx", "from", "to", 10, 1, 5⟩
        (Backend.generate_trc20_signature (fun s m => "hmac:" ++ s ++ ":" ++ m)
          (fun _ => "10.042") "secret" "ORD1" 10 "tx")
      = (500, ⟨[("ORD1", ⟨"ORD1", 3, 10, 42, 10, 10000000, "PENDING", 0, 100, 0⟩)], [(3, 0)]⟩)
    ∧ Backend.get_by_order_id
        ⟨[("ORD1", ⟨"ORD1", 3, 10, 42, 10, 10000000, "PENDING", 0, 100, 0⟩)], [(3, 0)]⟩ "ORD1"
      = some ⟨"ORD1", 3, 10, 42, 10, 10000000, "PENDING", 0, 100, 0⟩
    ∧ (500 : ℕ) ≠ 200 := by
  refine ⟨?_, rfl, by norm_num⟩
  rw [Backend.trc20_callback]
  rw [if_pos ?_]
  rw [Backend.verify_trc20_signature]
  exact beq_self_eq_true _

/-- C10: `WalletService.process_deposit` marks the order paid and credits the
user's balance with `base_amount` (in integer micro-units, principal only)
exactly when the order exists and its stored status string is the lowercase
`"pending"`; for any other status string it returns False and changes
nothing — and `OrderRepository.create_order` stores the uppercase
`"PENDING"`, which is a different string. -/
theorem C10_process_deposit_requires_lowercase_pending
    (st : Backend.DbState) (oid : String) (now : ℤ) (o : Backend.DbOrder) (b : ℤ)
    (h : alookup st.orders oid = some o)
    (hb : alookup st.balances o.user_id = some b) :
    (o.status = "pending" →
      Backend.process_deposit st oid now
        = (true, ⟨aset st.orders oid { o with status := "paid", updated_at := now },
            aset st.balances o.user_id
              (b + Fp.pytrunc (Fp.fmul o.base_amount 1000000))⟩))
    ∧ (o.status ≠ "pending" → Backend.process_deposit st oid now = (false, st))
    ∧ (∀ oid2, alookup st.orders oid2 = none →
        Backend.process_deposit st oid2 now = (false, st))
    ∧ (∀ order_id user_id base_amount unique_suffix total_amount timeout now2,
        ((Backend.create_order st order_id user_id base_amount unique_suffix
          total_amount timeout now2).1).status = "PENDING")
    ∧ ("PENDING" : String) ≠ "pending" := by
  refine ⟨?_, ?_, ?_, ?_, by decide⟩
  · intro hs
    simp only [Backend.process_deposit, Backend.get_by_order_id, h]
    rw [if_neg (by rw [hs]; exact fun hc => hc rfl)]
    simp only [Backend.update_status, h, Backend.update_balance]
    rw [show alookup ({ st with orders := (aset st.orders oid
        { o with status := "paid", updated_at := now }) } : Backend.DbState).balances
        o.user_id = some b from hb]
  · intro hs
    simp only [Backend.process_deposit, Backend.get_by_order_id, h]
    rw [if_pos hs]
  · intro oid2 h2
    simp only [Backend.process_deposit, Backend.get_by_order_id, h2]
  · intro order_id user_id base_amount unique_suffix total_amount timeout now2
    rfl

/-- Witness for C10: a deposit against the uppercase "PENDING" row written by
`create_order` is refused; against a lowercase "pending" row it succeeds and
credits the balance. -/
theorem C10_process_deposit_requires_lowercase_pending_witness :
    Backend.process_deposit
        ⟨[("D2", ⟨"D2", 3, 10, 42, 10, 10000000, "PENDING", 0, 100, 0⟩)], [(3, 0)]⟩ "D2" 9
      = (false, ⟨[("D2", ⟨"D2", 3, 10, 42, 10, 10000000, "PENDING", 0, 100, 0⟩)], [(3, 0)]⟩)
    ∧ Backend.process_deposit
        ⟨[("D1", ⟨"D1", 3, 10, 42, 10, 10000000, "pending", 0, 100, 0⟩)], [(3, 0)]⟩ "D1" 9
      = (true, ⟨aset [("D1", ⟨"D1", 3, 10, 42, 10, 10000000, "pending", 0, 100, 0⟩)] "D1"
            ⟨"D1", 3, 10, 42, 10, 10000000, "paid", 0, 100, 9⟩,
          aset [((3:ℤ), (0:ℤ))] 3 (0 + Fp.pytrunc (Fp.fmul 10 1000000))⟩) := by
  constructor
  · exact (C10_process_deposit_requires_lowercase_pending
      ⟨[("D2", ⟨"D2", 3, 10, 42, 10, 10000000, "PENDING", 0, 100, 0⟩)], [(3, 0)]⟩ "D2" 9
      ⟨"D2", 3, 10, 42, 10, 10000000, "PENDING", 0, 100, 0⟩ 0 rfl rfl).2.1 (by decide)
  · exact (C10_process_deposit_requires_lowercase_pending
      ⟨[("D1", ⟨"D1", 3, 10, 42, 10, 10000000, "pending", 0, 100, 0⟩)], [(3, 0)]⟩ "D1" 9
      ⟨"D1", 3, 10, 42, 10, 10000000, "pending", 0, 100, 0⟩ 0 rfl rfl).1 rfl

/-- Two distinct suffixes below 1000 give distinct binary64 totals whenever
the base amount is at most 10⁹: the two exact sums differ by at least
1/1000 − 2⁻⁵², while rounding each to a double moves it by at most 2⁻²³. -/
theorem calculate_total_amount_lt_ne (b : ℚ) (s1 s2 : ℕ) (hb0 : 0 < b)
    (hb1 : b ≤ 1000000000) (h11 : 1 ≤ s1) (h19 : s1 ≤ 999) (h21 : 1 ≤ s2)
    (h29 : s2 ≤ 999) (hlt : s1 < s2) :
    Core.calculate_total_amount b s1 ≠ Core.calculate_total_amount b s2 := by
  intro heq
  rw [Core.calculate_total_amount, Core.calculate_total_amount,
    Fp.fadd, Fp.fadd, Fp.fdiv, Fp.fdiv] at heq
  have p50 : Fp.pow2 (-50) = 1/1125899906842624 := by
    rw [show ((-50:ℤ)) = -((50:ℕ):ℤ) by norm_num, Fp.pow2_negOfNat]
    norm_num
  have p53 : Fp.pow2 ((0:ℤ) - 53) = 1/9007199254740992 := by
    rw [show ((0:ℤ) - 53) = -((53:ℕ):ℤ) by norm_num, Fp.pow2_negOfNat]
    norm_num
  have p30 : Fp.pow2 30 = 1073741824 := by
    rw [show ((30:ℤ)) = ((30:ℕ):ℤ) by norm_num, Fp.pow2_natCast]
    norm_num
  have p23 : Fp.pow2 ((30:ℤ) - 53) = 1/8388608 := by
    rw [show ((30:ℤ) - 53) = -((23:ℕ):ℤ) by norm_num, Fp.pow2_negOfNat]
    norm_num
  have hc11 : (1:ℚ) ≤ (s1:ℚ) := by exact_mod_cast h11
  have hc19 : (s1:ℚ) ≤ 999 := by exact_mod_cast h19
  have hc21 : (1:ℚ) ≤ (s2:ℚ) := by exact_mod_cast h21
  have hc29 : (s2:ℚ) ≤ 999 := by exact_mod_cast h29
  have hcs : (s1:ℚ) + 1 ≤ (s2:ℚ) := by exact_mod_cast hlt
  have hx1 := Fp.roundD_err ((s1:ℚ)/1000) 0 (by positivity)
    (by rw [p50, div_le_div_iff₀ (by norm_num) (by norm_num)]; linarith)
    (by rw [Fp.pow2_zero]; rw [div_le_one (by norm_num)]; linarith)
    (by norm_num) (by norm_num)
  have hx2 := Fp.roundD_err ((s2:ℚ)/1000) 0 (by positivity)
    (by rw [p50, div_le_div_iff₀ (by norm_num) (by norm_num)]; linarith)
    (by rw [Fp.pow2_zero]; rw [div_le_one (by norm_num)]; linarith)
    (by norm_num) (by norm_num)
  rw [p53, abs_le] at hx1 hx2
  obtain ⟨hx1a, hx1b⟩ := hx1
  obtain ⟨hx2a, hx2b⟩ := hx2
  have hq1 : (1:ℚ)/1000 ≤ (s1:ℚ)/1000 := by
    rw [div_le_div_iff₀ (by norm_num) (by norm_num)]; linarith
  have hq1u : (s1:ℚ)/1000 ≤ 999/1000 := by
    rw [div_le_div_iff₀ (by norm_num) (by norm_num)]; linarith
  have hq2 : (1:ℚ)/1000 ≤ (s2:ℚ)/1000 := by
    rw [div_le_div_iff₀ (by norm_num) (by norm_num)]; linarith
  have hq2u : (s2:ℚ)/1000 ≤ 999/1000 := by
    rw [div_le_div_iff₀ (by norm_num) (by norm_num)]; linarith
  have hgap : (s1:ℚ)/1000 + 1/1000 ≤ (s2:ℚ)/1000 := by
    rw [div_add_div_same, div_le_div_iff₀ (by norm_num) (by norm_num)]; linarith
  have hy1 := Fp.roundD_err (b + Fp.roundD ((s1:ℚ)/1000)) 30
    (by linarith) (by rw [p50]; linarith) (by rw [p30]; linarith)
    (by norm_num) (by norm_num)
  have hy2 := Fp.roundD_err (b + Fp.roundD ((s2:ℚ)/1000)) 30
    (by linarith) (by rw [p50]; linarith) (by rw [p30]; linarith)
    (by norm_num) (by norm_num)
  rw [p23, abs_le] at hy1 hy2
  obtain ⟨hy1a, hy1b⟩ := hy1
  obtain ⟨hy2a, hy2b⟩ := hy2
  rw [heq] at hy1a hy1b
  linarith

/-- C9 counterexample: for the valid base amount 10¹⁸ the suffix thousandths
are absorbed by binary64 rounding, so two different suffixes yield the same
generated total. -/
theorem C9_large_base_collision_counterexample :
    Core.calculate_total_amount 1000000000000000000 1
      = Core.calculate_total_amount 1000000000000000000 2
    ∧ (1 : ℕ) ≠ 2 ∧ (0:ℚ) < 1000000000000000000 := by
  refine ⟨?_, by norm_num, by norm_num⟩
  rw [Core.calculate_total_amount, Core.calculate_total_amount,
    show ((1:ℕ):ℚ) = 1 by norm_num, show ((2:ℕ):ℚ) = 2 by norm_num,
    Fp.eval_fdiv_1_1000, Fp.eval_fdiv_2_1000,
    Fp.eval_fadd_billion18_A1, Fp.eval_fadd_billion18_A2]

/-- C9 (amended): suffix injectivity of `calculate_total_amount` holds for
every binary64 base amount `b` with `0 < b ≤ 10⁹`: distinct suffixes in
1..999 always generate distinct totals. -/
theorem C9_suffix_injectivity_bounded_base (b : ℚ) (s1 s2 : ℕ)
    (hrep : Fp.roundD b = b) (hb0 : 0 < b) (hb1 : b ≤ 1000000000)
    (h11 : 1 ≤ s1) (h19 : s1 ≤ 999) (h21 : 1 ≤ s2) (h29 : s2 ≤ 999)
    (hne : s1 ≠ s2) :
    Core.calculate_total_amount b s1 ≠ Core.calculate_total_amount b s2 := by
  rcases Nat.lt_or_ge s1 s2 with h | h
  · exact calculate_total_amount_lt_ne b s1 s2 hb0 hb1 h11 h19 h21 h29 h
  · have h2 : s2 < s1 := lt_of_le_of_ne h (fun hc => hne hc.symm)
    exact (calculate_total_amount_lt_ne b s2 s1 hb0 hb1 h21 h29 h11 h19 h2).symm

/-- Witness for the amended C9 at base 10 and suffixes 1 and 2. -/
theorem C9_suffix_injectivity_bounded_base_witness :
    Core.calculate_total_amount 10 1 ≠ Core.calculate_total_amount 10 2 :=
  C9_suffix_injectivity_bounded_base 10 1 2 Fp.eval_roundD_10 (by norm_num)
    (by norm_num) (by norm_num) (by norm_num) (by norm_num) (by norm_num)
    (by norm_num)

namespace Core

/-- Store consistency: every row is keyed by its own `order_id`, which is
what `_save_order` guarantees. -/
def WellKeyed (l : List (String × Order)) : Prop := ∀ p ∈ l, p.2.order_id = p.1

theorem mem_aerase {α β : Type} [DecidableEq α] {l : List (α × β)} {k : α}
    {p : α × β} (h : p ∈ aerase l k) : p ∈ l := by
  induction l with
  | nil => cases h
  | cons q t ih =>
    rw [aerase] at h
    by_cases hq : q.1 = k
    · rw [if_pos hq] at h
      exact List.mem_cons_of_mem _ (ih h)
    · rw [if_neg hq] at h
      rcases List.mem_cons.mp h with h1 | h1
      · exact h1 ▸ List.mem_cons_self _ _
      · exact List.mem_cons_of_mem _ (ih h1)

theorem WellKeyed.lookup {l : List (String × Order)} {k : String} {o : Order}
    (hwk : WellKeyed l) (h : alookup l k = some o) : o.order_id = k := by
  induction l with
  | nil => cases h
  | cons p t ih =>
    rw [alookup] at h
    by_cases hp : p.1 = k
    · rw [if_pos hp] at h
      have hpo : p.2 = o := by injection h
      rw [← hp, ← hpo]
      exact hwk p (List.mem_cons_self _ _)
    · rw [if_neg hp] at h
      exact ih (fun q hq => hwk q (List.mem_cons_of_mem _ hq)) h

theorem WellKeyed.aset {l : List (String × Order)} {k : String} {o : Order}
    (hwk : WellKeyed l) (ho : o.order_id = k) : WellKeyed (aset l k o) := by
  intro p hp
  rcases List.mem_cons.mp hp with h1 | h1
  · rw [h1]
    exact ho
  · exact hwk p (mem_aerase h1)

theorem alookup_mem_keys {α β : Type} [DecidableEq α] {l : List (α × β)}
    {k : α} {v : β} (h : alookup l k = some v) : k ∈ l.map Prod.fst := by
  induction l with
  | nil => cases h
  | cons p t ih =>
    rw [alookup] at h
    by_cases hp : p.1 = k
    · rw [List.map_cons, hp]
      exact List.mem_cons_self _ _
    · rw [if_neg hp] at h
      exact List.mem_cons_of_mem _ (ih h)

theorem release_suffix_orders (st : SrcState) (s : ℕ) (oid : String) :
    (release_suffix st s oid).orders = st.orders := by
  rw [release_suffix]
  split <;> rfl

theorem release_suffix_pool_ne (st : SrcState) (s : ℕ) (oid : String)
    {s' : ℕ} {v : String} (hv : st.pool s' = some v) (hvo : v ≠ oid) :
    (release_suffix st s oid).pool s' = some v := by
  rw [release_suffix]
  by_cases hc : st.pool s = some oid
  · rw [if_pos hc]
    show (if s' = s then none else st.pool s') = some v
    by_cases hs : s' = s
    · rw [hs] at hv
      rw [hv] at hc
      exact absurd (by injection hc) hvo
    · rw [if_neg hs]
      exact hv
  · rw [if_neg hc]
    exact hv

theorem release_suffix_pool_none (st : SrcState) (s : ℕ) (oid : String)
    {s' : ℕ} (h : st.pool s' = none) :
    (release_suffix st s oid).pool s' = none := by
  rw [release_suffix]
  by_cases hc : st.pool s = some oid
  · rw [if_pos hc]
    show (if s' = s then none else st.pool s') = none
    by_cases hs : s' = s
    · rw [if_pos hs]
    · rw [if_neg hs]
      exact h
  · rw [if_neg hc]
    exact h

theorem release_suffix_pool_self (st : SrcState) (s : ℕ) (oid : String)
    (h : st.pool s = some oid) : (release_suffix st s oid).pool s = none := by
  rw [release_suffix, if_pos h]
  show (if s = s then none else st.pool s) = none
  rw [if_pos rfl]

theorem update_order_status_orders_ne (now : ℤ) (st : SrcState) (k : String)
    (ns : OrderStatus) (k' : String) (hne : k' ≠ k) (hwk : WellKeyed st.orders) :
    alookup ((update_order_status now st k ns).2).orders k'
      = alookup st.orders k' := by
  cases hget : get_order st k with
  | none => rw [update_order_status_none now st k ns hget]
  | some o =>
    by_cases hv : is_valid_status_transition o.status ns = true
    · rw [update_order_status_valid now st k ns o hget hv]
      have hid : o.order_id = k := hwk.lookup hget
      show alookup (aset (if ns = .PAID ∨ ns = .CANCELLED ∨ ns = .EXPIRED
        then release_suffix st o.unique_suffix k else st).orders
        ({ o with status := ns, updated_at := now } : Order).order_id
        { o with status := ns, updated_at := now }) k' = alookup st.orders k'
      have hXord : (if ns = .PAID ∨ ns = .CANCELLED ∨ ns = .EXPIRED
          then release_suffix st o.unique_suffix k else st).orders = st.orders := by
        split
        · exact release_suffix_orders st o.unique_suffix k
        · rfl
      rw [hXord, show ({ o with status := ns, updated_at := now } : Order).order_id
        = k from hid]
      exact alookup_aset_ne _ _ _ _ hne
    · rw [update_order_status_invalid now st k ns o hget
        (Bool.eq_false_iff.mpr hv)]

theorem update_order_status_expire_self (now : ℤ) (st : SrcState) (k : String)
    (o : Order) (hwk : WellKeyed st.orders) (hget : get_order st k = some o)
    (hPend : o.status = .PENDING) :
    alookup ((update_order_status now st k .EXPIRED).2).orders k
      = some { o with status := .EXPIRED, updated_at := now } := by
  rw [update_order_status_valid now st k .EXPIRED o hget (by rw [hPend]; rfl)]
  have hid : o.order_id = k := hwk.lookup hget
  show alookup (aset (if OrderStatus.EXPIRED = .PAID ∨ OrderStatus.EXPIRED = .CANCELLED
      ∨ OrderStatus.EXPIRED = .EXPIRED
      then release_suffix st o.unique_suffix k else st).orders
    ({ o with status := .EXPIRED, updated_at := now } : Order).order_id
    { o with status := .EXPIRED, updated_at := now }) k
    = some { o with status := .EXPIRED, updated_at := now }
  rw [show ({ o with status := .EXPIRED, updated_at := now } : Order).order_id = k from hid]
  exact alookup_aset_self _ _ _

theorem update_order_status_wellkeyed (now : ℤ) (st : SrcState) (k : String)
    (ns : OrderStatus) (hwk : WellKeyed st.orders) :
    WellKeyed ((update_order_status now st k ns).2).orders := by
  cases hget : get_order st k with
  | none => rw [update_order_status_none now st k ns hget]; exact hwk
  | some o =>
    by_cases hv : is_valid_status_transition o.status ns = true
    · rw [update_order_status_valid now st k ns o hget hv]
      have hXord : (if ns = .PAID ∨ ns = .CANCELLED ∨ ns = .EXPIRED
          then release_suffix st o.unique_suffix k else st).orders = st.orders := by
        split
        · exact release_suffix_orders st o.unique_suffix k
        · rfl
      show WellKeyed (aset (if ns = .PAID ∨ ns = .CANCELLED ∨ ns = .EXPIRED
        then release_suffix st o.unique_suffix k else st).orders
        ({ o with status := ns, updated_at := now } : Order).order_id
        { o with status := ns, updated_at := now })
      rw [hXord]
      exact hwk.aset rfl
    · rw [update_order_status_invalid now st k ns o hget (Bool.eq_false_iff.mpr hv)]
      exact hwk

theorem update_order_status_pool_ne (now : ℤ) (st : SrcState) (k : String)
    (ns : OrderStatus) {s : ℕ} {v : String} (hv : st.pool s = some v)
    (hvk : v ≠ k) :
    ((update_order_status now st k ns).2).pool s = some v := by
  cases hget : get_order st k with
  | none => rw [update_order_status_none now st k ns hget]; exact hv
  | some o =>
    by_cases hvalid : is_valid_status_transition o.status ns = true
    · rw [update_order_status_valid now st k ns o hget hvalid]
      show (if ns = .PAID ∨ ns = .CANCELLED ∨ ns = .EXPIRED
        then release_suffix st o.unique_suffix k else st).pool s = some v
      split
      · exact release_suffix_pool_ne st o.unique_suffix k hv hvk
      · exact hv
    · rw [update_order_status_invalid now st k ns o hget (Bool.eq_false_iff.mpr hvalid)]
      exact hv

theorem update_order_status_pool_none (now : ℤ) (st : SrcState) (k : String)
    (ns : OrderStatus) {s : ℕ} (h : st.pool s = none) :
    ((update_order_status now st k ns).2).pool s = none := by
  cases hget : get_order st k with
  | none => rw [update_order_status_none now st k ns hget]; exact h
  | some o =>
    by_cases hvalid : is_valid_status_transition o.status ns = true
    · rw [update_order_status_valid now st k ns o hget hvalid]
      show (if ns = .PAID ∨ ns = .CANCELLED ∨ ns = .EXPIRED
        then release_suffix st o.unique_suffix k else st).pool s = none
      split
      · exact release_suffix_pool_none st o.unique_suffix k h
      · exact h
    · rw [update_order_status_invalid now st k ns o hget (Bool.eq_false_iff.mpr hvalid)]
      exact h

theorem update_order_status_release_self (now : ℤ) (st : SrcState) (k : String)
    (o : Order) (hget : get_order st k = some o) (hPend : o.status = .PENDING)
    (hbind : st.pool o.unique_suffix = some k) :
    ((update_order_status now st k .EXPIRED).2).pool o.unique_suffix = none := by
  rw [update_order_status_valid now st k .EXPIRED o hget (by rw [hPend]; rfl)]
  show (if (OrderStatus.EXPIRED = .PAID ∨ OrderStatus.EXPIRED = .CANCELLED
    ∨ OrderStatus.EXPIRED = .EXPIRED)
    then release_suffix st o.unique_suffix k else st).pool o.unique_suffix = none
  rw [if_pos (Or.inr (Or.inr rfl))]
  exact release_suffix_pool_self st o.unique_suffix k hbind

end Core

namespace Core

theorem cleanupLoop_untouched (now : ℤ) : ∀ (ks : List String) (st : SrcState)
    (oid : String) (o : Order), WellKeyed st.orders →
    alookup st.orders oid = some o →
    ¬(o.status = .PENDING ∧ o.expires_at < now) →
    alookup ((cleanupLoop now ks st).2).orders oid = some o := by
  intro ks
  induction ks with
  | nil =>
    intro st oid o _ ho _
    exact ho
  | cons k ks ih =>
    intro st oid o hwk ho hno
    cases hget : get_order st k with
    | none =>
      simp only [cleanupLoop, hget]
      exact ih st oid o hwk ho hno
    | some o2 =>
      simp only [cleanupLoop, hget]
      by_cases hcond : (Order.is_expired o2 now = true ∧ o2.status = OrderStatus.PENDING)
      · rw [if_pos hcond]
        by_cases hk : k = oid
        · subst hk
        -- the row at this key is o itself, contradicting hno
          have hoo : some o2 = some o := by
            have h2 : alookup st.orders k = some o2 := hget
            exact h2.symm.trans ho
          have ho2 : o2 = o := by injection hoo
          subst ho2
          exact absurd ⟨hcond.2, of_decide_eq_true hcond.1⟩ hno
        · exact ih (update_order_status now st k .EXPIRED).2 oid o
            (update_order_status_wellkeyed now st k .EXPIRED hwk)
            (by
              rw [update_order_status_orders_ne now st k .EXPIRED oid
                (fun hc => hk hc.symm) hwk]
              exact ho)
            hno
      · rw [if_neg hcond]
        exact ih st oid o hwk ho hno

theorem cleanupLoop_pool_none (now : ℤ) : ∀ (ks : List String) (st : SrcState)
    (s : ℕ), st.pool s = none → ((cleanupLoop now ks st).2).pool s = none := by
  intro ks
  induction ks with
  | nil =>
    intro st s h
    exact h
  | cons k ks ih =>
    intro st s h
    cases hget : get_order st k with
    | none =>
      simp only [cleanupLoop, hget]
      exact ih st s h
    | some o2 =>
      simp only [cleanupLoop, hget]
      by_cases hcond : (Order.is_expired o2 now = true ∧ o2.status = OrderStatus.PENDING)
      · rw [if_pos hcond]
        exact ih (update_order_status now st k .EXPIRED).2 s
          (update_order_status_pool_none now st k .EXPIRED h)
      · rw [if_neg hcond]
        exact ih st s h

theorem cleanupLoop_expires (now : ℤ) : ∀ (ks : List String) (st : SrcState)
    (oid : String) (o : Order), WellKeyed st.orders → oid ∈ ks →
    alookup st.orders oid = some o → o.status = .PENDING → o.expires_at < now →
    alookup ((cleanupLoop now ks st).2).orders oid
        = some { o with status := .EXPIRED, updated_at := now }
    ∧ (st.pool o.unique_suffix = some oid →
        ((cleanupLoop now ks st).2).pool o.unique_suffix = none) := by
  intro ks
  induction ks with
  | nil =>
    intro st oid o _ hin _ _ _
    cases hin
  | cons k ks ih =>
    intro st oid o hwk hin ho hPend hExp
    cases hget : get_order st k with
    | none =>
      have hne : k ≠ oid := by
        intro hc
        subst hc
        have h2 : get_order st k = some o := ho
        rw [hget] at h2
        cases h2
      have hin' : oid ∈ ks := by
        rcases List.mem_cons.mp hin with h | h
        · exact absurd h.symm hne
        · exact h
      simp only [cleanupLoop, hget]
      exact ih st oid o hwk hin' ho hPend hExp
    | some o2 =>
      simp only [cleanupLoop, hget]
      by_cases hk : k = oid
      · subst hk
        have hoo : some o2 = some o := by
          have h2 : alookup st.orders k = some o2 := hget
          exact h2.symm.trans ho
        have ho2 : o2 = o := by injection hoo
        subst ho2
        rw [if_pos ⟨decide_eq_true hExp, hPend⟩]
        constructor
        · exact cleanupLoop_untouched now ks _ k _
            (update_order_status_wellkeyed now st k .EXPIRED hwk)
            (update_order_status_expire_self now st k o2 hwk hget hPend)
            (fun hc => OrderStatus.noConfusion hc.1)
        · intro hbind
          exact cleanupLoop_pool_none now ks _ _
            (update_order_status_release_self now st k o2 hget hPend hbind)
      · have hin' : oid ∈ ks := by
          rcases List.mem_cons.mp hin with h | h
          · exact absurd h.symm hk
          · exact h
        by_cases hcond : (Order.is_expired o2 now = true ∧ o2.status = OrderStatus.PENDING)
        · rw [if_pos hcond]
          have hIH := ih (update_order_status now st k .EXPIRED).2 oid o
            (update_order_status_wellkeyed now st k .EXPIRED hwk) hin'
            (by
              rw [update_order_status_orders_ne now st k .EXPIRED oid
                (fun hc => hk hc.symm) hwk]
              exact ho)
            hPend hExp
          constructor
          · exact hIH.1
          · intro hbind
            exact hIH.2 (update_order_status_pool_ne now st k .EXPIRED hbind
              (fun hc => hk hc.symm))
        · rw [if_neg hcond]
          exact ih st oid o hwk hin' ho hPend hExp

end Core

/-- C7: after one run of the expiry sweep at time `now`, every stored order
that was PENDING with `expires_at < now` has status EXPIRED (with
`updated_at = now`) and its suffix binding has been released back to the
pool, while every other stored order — non-expired PENDING ones and orders
in any other status — is unchanged. -/
theorem C7_sweeper_postcondition (now : ℤ) (st : Core.SrcState)
    (hwk : ∀ p ∈ st.orders, p.2.order_id = p.1)
    (oid : String) (o : Core.Order) (ho : alookup st.orders oid = some o) :
    ((o.status = .PENDING ∧ o.expires_at < now) →
      alookup ((Core.cleanup_expired_orders now st).2).orders oid
          = some { o with status := .EXPIRED, updated_at := now }
      ∧ (st.pool o.unique_suffix = some oid →
          ((Core.cleanup_expired_orders now st).2).pool o.unique_suffix = none))
    ∧ (¬(o.status = .PENDING ∧ o.expires_at < now) →
      alookup ((Core.cleanup_expired_orders now st).2).orders oid = some o) := by
  constructor
  · intro hc
    have hin : oid ∈ st.orders.map Prod.fst := Core.alookup_mem_keys ho
    exact Core.cleanupLoop_expires now (st.orders.map Prod.fst) st oid o hwk hin ho
      hc.1 hc.2
  · intro hno
    exact Core.cleanupLoop_untouched now (st.orders.map Prod.fst) st oid o hwk ho hno

/-- Witness for C7: a concrete expired PENDING order is expired by the sweep
and its suffix binding is freed. -/
theorem C7_sweeper_postcondition_witness :
    alookup ((Core.cleanup_expired_orders 200
        ⟨[("a", ⟨"a", 10, 42, 10, .PENDING, 1, 0, 0, 100⟩)], [],
          fun s => if s = 42 then some "a" else none⟩).2).orders "a"
      = some ⟨"a", 10, 42, 10, .EXPIRED, 1, 0, 200, 100⟩
    ∧ ((Core.cleanup_expired_orders 200
        ⟨[("a", ⟨"a", 10, 42, 10, .PENDING, 1, 0, 0, 100⟩)], [],
          fun s => if s = 42 then some "a" else none⟩).2).pool 42 = none := by
  have h := C7_sweeper_postcondition 200
    ⟨[("a", ⟨"a", 10, 42, 10, .PENDING, 1, 0, 0, 100⟩)], [],
      fun s => if s = 42 then some "a" else none⟩
    (by
      intro p hp
      rw [List.mem_singleton] at hp
      rw [hp])
    "a" ⟨"a", 10, 42, 10, .PENDING, 1, 0, 0, 100⟩ rfl
  obtain ⟨hpos, _⟩ := h
  obtain ⟨h1, h2⟩ := hpos ⟨rfl, by norm_num⟩
  exact ⟨h1, h2 (by simp)⟩
